import Mathlib

/-!
Verification of the ERC-7730 clear-signing SDK core: a shallow embedding of
the calldata decoder, signature registry, descriptor validation and the
`ClearSigner.decode` pipeline, together with theorems settling the frozen
claims about the natural-language specification.

JavaScript/TypeScript semantics are modelled explicitly: strings are Lean
`String`s (the inputs are ASCII hex payloads and signatures), JS `BigInt`s are
`Int` (arbitrary precision), fallible operations return `Except String`, and
the process-wide mutable tables (custom signatures, custom descriptors,
Sourcify cache) are threaded as explicit state.  Network collaborators
(Sourcify fetch + descriptor generation, date locale rendering) are abstracted
as oracle parameters; the modelled configuration runs with no RPC provider,
matching the repository's offline test configuration.
-/

set_option maxRecDepth 10000

namespace ERC7730

/-! ## JavaScript string and number helpers -/

/-- JS `str.slice(start, stop)` for non-negative indices (clamped). -/
def jsSlice (s : String) (start stop : Nat) : String :=
  String.mk ((s.toList.drop start).take (stop - start))

/-- JS `str.slice(start)` for a non-negative index. -/
def jsSliceFrom (s : String) (start : Nat) : String :=
  String.mk (s.toList.drop start)

/-- JS `str.toLowerCase()` (ASCII range, which is all the code manipulates). -/
def jsToLower (s : String) : String :=
  String.mk (s.toList.map Char.toLower)

/-- A hexadecimal digit's value. -/
def hexDigitVal? (c : Char) : Option Nat :=
  if '0' ≤ c ∧ c ≤ '9' then some (c.toNat - '0'.toNat)
  else if 'a' ≤ c ∧ c ≤ 'f' then some (c.toNat - 'a'.toNat + 10)
  else if 'A' ≤ c ∧ c ≤ 'F' then some (c.toNat - 'A'.toNat + 10)
  else none

/-- Parse a string of hex digits; `none` when empty or any char is not hex.
This is JS `BigInt("0x" ++ s)`: it throws exactly on those inputs. -/
def parseHexNat? (s : String) : Option Nat :=
  if s.isEmpty then none
  else s.toList.foldl (fun acc c =>
    match acc, hexDigitVal? c with
    | some n, some d => some (n * 16 + d)
    | _, _ => none) (some 0)

/-- Parse a string of decimal digits; `none` when empty or non-digit. -/
def parseDecNat? (s : String) : Option Nat :=
  if s.isEmpty then none
  else s.toList.foldl (fun acc c =>
    match acc, c.isDigit with
    | some n, true => some (n * 10 + (c.toNat - '0'.toNat))
    | _, _ => none) (some 0)

/-- JS `BigInt(string)`: trims whitespace; empty string is `0`; `0x`/`0X`
prefix parses hex; otherwise an optional sign followed by decimal digits;
anything else throws (modelled as `none`). -/
def jsBigIntOfString? (s : String) : Option Int :=
  let t := s.trim
  if t.isEmpty then some 0
  else if t.startsWith "0x" ∨ t.startsWith "0X" then
    (parseHexNat? (jsSliceFrom t 2)).map Int.ofNat
  else if t.startsWith "-" then
    (parseDecNat? (jsSliceFrom t 1)).map (fun n => -(Int.ofNat n))
  else if t.startsWith "+" then
    (parseDecNat? (jsSliceFrom t 1)).map Int.ofNat
  else
    (parseDecNat? t).map Int.ofNat

/-- JS `parseInt(s)` restricted to what the decoder feeds it (a digit prefix);
`none` models `NaN`. -/
def jsParseInt? (s : String) : Option Nat :=
  let digits := s.toList.takeWhile Char.isDigit
  if digits.isEmpty then none else parseDecNat? (String.mk digits)

/-- A JS `\w` word character: `[A-Za-z0-9_]`. -/
def isWordChar (c : Char) : Bool :=
  ('a' ≤ c ∧ c ≤ 'z') ∨ ('A' ≤ c ∧ c ≤ 'Z') ∨ c.isDigit ∨ c = '_'

/-! ## Keccak-256

`viem`'s `keccak256(toBytes(s))` hashes the UTF-8 bytes of `s` with the
original Keccak padding (`0x01 … 0x80`).  The state is 25 lanes of 64 bits,
kept as `Nat` values below `2 ^ 64` via explicit masking. -/

def mask64 : Nat := 2 ^ 64 - 1

/-- Rotate a 64-bit lane left by `n` bits. -/
def rotl64 (x n : Nat) : Nat :=
  ((x <<< n) ||| (x >>> (64 - n))) &&& mask64

/-- Keccak round constants. -/
def keccakRC : List Nat :=
  [0x1, 0x8082, 0x800000000000808a, 0x8000000080008000,
   0x808b, 0x80000001, 0x8000000080008081, 0x8000000000008009,
   0x8a, 0x88, 0x80008009, 0x8000000a,
   0x8000808b, 0x800000000000008b, 0x8000000000008089, 0x8000000000008003,
   0x8000000000008002, 0x8000000000000080, 0x800a, 0x800000008000000a,
   0x8000000080008081, 0x8000000000008080, 0x80000001, 0x8000000080008008]

/-- Rotation offsets, indexed `rotOff x y` for lane `(x, y)`. -/
def rotOff (x y : Nat) : Nat :=
  [[0, 36, 3, 41, 18],
   [1, 44, 10, 45, 2],
   [62, 6, 43, 15, 61],
   [28, 55, 25, 21, 56],
   [27, 20, 39, 8, 14]].getD x [] |>.getD y 0

/-- Lane `(x, y)` of a 25-lane state stored flat at index `x + 5 * y`. -/
def lane (s : List Nat) (x y : Nat) : Nat :=
  s.getD (x + 5 * y) 0

/-- One Keccak-f round. -/
def keccakRound (s : List Nat) (rc : Nat) : List Nat :=
  let c := (List.range 5).map fun x =>
    lane s x 0 ^^^ lane s x 1 ^^^ lane s x 2 ^^^ lane s x 3 ^^^ lane s x 4
  let d := (List.range 5).map fun x =>
    c.getD ((x + 4) % 5) 0 ^^^ rotl64 (c.getD ((x + 1) % 5) 0) 1
  let sθ := (List.range 25).map fun i =>
    s.getD i 0 ^^^ d.getD (i % 5) 0
  -- ρ and π combined: B[X,Y] = rotl A[(X + 3Y) % 5, X] by its offset
  let b := (List.range 25).map fun i =>
    let X := i % 5
    let Y := i / 5
    let x := (X + 3 * Y) % 5
    rotl64 (lane sθ x X) (rotOff x X)
  let sχ := (List.range 25).map fun i =>
    let x := i % 5
    let y := i / 5
    lane b x y ^^^ ((mask64 ^^^ lane b ((x + 1) % 5) y) &&& lane b ((x + 2) % 5) y)
  match sχ with
  | a0 :: rest => (a0 ^^^ rc) :: rest
  | [] => []

/-- The Keccak-f[1600] permutation. -/
def keccakF (s : List Nat) : List Nat :=
  keccakRC.foldl keccakRound s

/-- Little-endian bytes of a 64-bit lane. -/
def laneToBytes (x : Nat) : List Nat :=
  (List.range 8).map fun i => (x >>> (8 * i)) &&& 0xff

/-- A 64-bit lane from up to 8 little-endian bytes. -/
def bytesToLane (bs : List Nat) : Nat :=
  (bs.zip (List.range 8)).foldl (fun acc (p : Nat × Nat) => acc ||| (p.1 <<< (8 * p.2))) 0

/-- Worker for `chunks`; the fuel bounds the number of chunks produced. -/
def chunksGo {α : Type} (n : Nat) : Nat → List α → List (List α)
  | 0, _ => []
  | fuel + 1, l =>
    if n = 0 ∨ l.isEmpty then []
    else l.take n :: chunksGo n fuel (l.drop n)

/-- Split a list into chunks of `n` elements. -/
def chunks {α : Type} (n : Nat) (l : List α) : List (List α) :=
  chunksGo n l.length l

/-- Absorb one padded 136-byte block into the state and permute. -/
def keccakAbsorbBlock (s : List Nat) (block : List Nat) : List Nat :=
  let lanes := (chunks 8 block).map bytesToLane
  let s' := (List.range 25).map fun i =>
    if i < 17 then s.getD i 0 ^^^ lanes.getD i 0 else s.getD i 0
  keccakF s'

/-- Keccak-256 of a byte list (original Keccak `0x01 … 0x80` padding). -/
def keccak256Bytes (msg : List Nat) : List Nat :=
  let rate := 136
  let padLen := rate - msg.length % rate
  let padded :=
    if padLen = 1 then msg ++ [0x81]
    else msg ++ [0x01] ++ List.replicate (padLen - 2) 0 ++ [0x80]
  let final := (chunks rate padded).foldl keccakAbsorbBlock (List.replicate 25 0)
  ((final.take 4).map laneToBytes).flatten

/-- UTF-8 bytes of a string (`viem`'s `toBytes` on a non-hex string). -/
def utf8Bytes (s : String) : List Nat :=
  s.toList.flatMap fun c =>
    let n := c.toNat
    if n < 0x80 then [n]
    else if n < 0x800 then [0xC0 ||| (n >>> 6), 0x80 ||| (n &&& 0x3F)]
    else if n < 0x10000 then
      [0xE0 ||| (n >>> 12), 0x80 ||| ((n >>> 6) &&& 0x3F), 0x80 ||| (n &&& 0x3F)]
    else
      [0xF0 ||| (n >>> 18), 0x80 ||| ((n >>> 12) &&& 0x3F),
       0x80 ||| ((n >>> 6) &&& 0x3F), 0x80 ||| (n &&& 0x3F)]

/-- Lower-case hex digit for a value below 16. -/
def hexDigitChar (n : Nat) : Char :=
  if n < 10 then Char.ofNat ('0'.toNat + n) else Char.ofNat ('a'.toNat + (n - 10))

/-- Lower-case hex string of a byte list. -/
def bytesToHex (bs : List Nat) : String :=
  String.mk (bs.flatMap fun b => [hexDigitChar (b / 16), hexDigitChar (b % 16)])

/-- `viem`'s `keccak256`: `0x`-prefixed lower-case hex digest of the input
string's UTF-8 bytes. -/
def keccak256Hex (s : String) : String :=
  "0x" ++ bytesToHex (keccak256Bytes (utf8Bytes s))

/-! ## More JS string helpers -/

/-- JS `String.prototype.trim` (ASCII whitespace, which is all that occurs). -/
def jsTrim (s : String) : String :=
  String.mk (((s.toList.dropWhile Char.isWhitespace).reverse.dropWhile
    Char.isWhitespace).reverse)

def jsStartsWith (s pre : String) : Bool :=
  pre.toList.isPrefixOf s.toList

def jsEndsWith (s suf : String) : Bool :=
  suf.toList.isSuffixOf s.toList

/-- JS `str.slice(0, -n)`. -/
def jsDropRight (s : String) (n : Nat) : String :=
  String.mk (s.toList.take (s.toList.length - n))

/-- A character matched by the regex `.` (no line terminators). -/
def regexDotChar (c : Char) : Bool :=
  c ≠ '\n' ∧ c ≠ '\r' ∧ c ≠ ' ' ∧ c ≠ ' '

/-- An association-list map with JS `Map.set` update-in-place semantics. -/
def mapSet {α : Type} (m : List (String × α)) (k : String) (v : α) :
    List (String × α) :=
  match m with
  | [] => [(k, v)]
  | (a, b) :: t => if a = k then (k, v) :: t else (a, b) :: mapSet t k v

def mapGet {α : Type} (m : List (String × α)) (k : String) : Option α :=
  match m with
  | [] => none
  | (a, b) :: t => if a = k then some b else mapGet t k

/-! ## Decoded JS values

The decoder manipulates JS values of these shapes: `BigInt`s, strings,
booleans and (nested) arrays; `null` and `undefined` appear during field-path
resolution in the orchestrator.  Arrays are encoded as `arrNil`/`arrCons`
chains (rather than a nested `List`) so that all recursion over values is
structural and reduces in the kernel. -/

inductive JsValue where
  | null
  | undef
  | num (n : Int)
  | str (s : String)
  | bool (b : Bool)
  | arrNil
  | arrCons (head tail : JsValue)
deriving DecidableEq

/-- The JS array value holding the given elements. -/
def JsValue.ofList : List JsValue → JsValue
  | [] => .arrNil
  | v :: vs => .arrCons v (JsValue.ofList vs)

/-- JS array `toString` element rendering (`null`/`undefined` become empty;
nested arrays flatten through their own joined rendering). -/
def jsArrayElemString : JsValue → String
  | .null => ""
  | .undef => ""
  | .num n => toString n
  | .str s => s
  | .bool b => if b then "true" else "false"
  | .arrNil => ""
  | .arrCons h .arrNil => jsArrayElemString h
  | .arrCons h t => jsArrayElemString h ++ "," ++ jsArrayElemString t

/-- JS `String(value)` for the shapes above. -/
def jsString : JsValue → String
  | .null => "null"
  | .undef => "undefined"
  | .num n => toString n
  | .str s => s
  | .bool b => if b then "true" else "false"
  | .arrNil => jsArrayElemString .arrNil
  | .arrCons h t => jsArrayElemString (.arrCons h t)

/-- JS `BigInt(value)`: throws (`none`) on `null`, `undefined` and
non-numeric strings; arrays coerce through their joined string form. -/
def jsToBigInt? : JsValue → Option Int
  | .null => none
  | .undef => none
  | .num n => some n
  | .str s => jsBigIntOfString? s
  | .bool b => some (if b then 1 else 0)
  | .arrNil => jsBigIntOfString? (jsArrayElemString .arrNil)
  | .arrCons h t => jsBigIntOfString? (jsArrayElemString (.arrCons h t))

/-- Numeric interpretation used by JS `<`/`>` against a `BigInt`:
invalid coercions make the comparison false (`none`). -/
def jsCompareBigInt? : JsValue → Option Int
  | .null => some 0
  | .undef => none
  | .num n => some n
  | .str s => jsBigIntOfString? s
  | .bool b => some (if b then 1 else 0)
  | .arrNil => jsBigIntOfString? (jsArrayElemString .arrNil)
  | .arrCons h t => jsBigIntOfString? (jsArrayElemString (.arrCons h t))

/-! ## `core/signatures.ts` -/

structure FunctionSignature where
  selector : String
  signature : String
  name : String

/-- The mutable `customSignatures` map, threaded explicitly. -/
abbrev SigMap := List (String × FunctionSignature)

/-- Built-in function signatures for common operations. -/
def COMMON_SIGNATURES : List (String × FunctionSignature) :=
  [("0xa9059cbb", ⟨"0xa9059cbb", "transfer(address,uint256)", "transfer"⟩),
   ("0x095ea7b3", ⟨"0x095ea7b3", "approve(address,uint256)", "approve"⟩),
   ("0x23b872dd", ⟨"0x23b872dd", "transferFrom(address,address,uint256)", "transferFrom"⟩),
   ("0x70a08231", ⟨"0x70a08231", "balanceOf(address)", "balanceOf"⟩),
   ("0xdd62ed3e", ⟨"0xdd62ed3e", "allowance(address,address)", "allowance"⟩),
   ("0x18160ddd", ⟨"0x18160ddd", "totalSupply()", "totalSupply"⟩),
   ("0x42842e0e", ⟨"0x42842e0e", "safeTransferFrom(address,address,uint256)", "safeTransferFrom"⟩),
   ("0xb88d4fde", ⟨"0xb88d4fde", "safeTransferFrom(address,address,uint256,bytes)", "safeTransferFrom"⟩),
   ("0xa22cb465", ⟨"0xa22cb465", "setApprovalForAll(address,bool)", "setApprovalForAll"⟩),
   ("0x081812fc", ⟨"0x081812fc", "getApproved(uint256)", "getApproved"⟩),
   ("0x6352211e", ⟨"0x6352211e", "ownerOf(uint256)", "ownerOf"⟩),
   ("0xf242432a", ⟨"0xf242432a", "safeTransferFrom(address,address,uint256,uint256,bytes)", "safeTransferFrom"⟩),
   ("0x2eb2c2d6", ⟨"0x2eb2c2d6", "safeBatchTransferFrom(address,address,uint256[],uint256[],bytes)", "safeBatchTransferFrom"⟩),
   ("0x3593564c", ⟨"0x3593564c", "execute(bytes,bytes[],uint256)", "execute"⟩),
   ("0x414bf389", ⟨"0x414bf389", "exactInputSingle((address,address,uint24,address,uint256,uint256,uint256,uint160))", "exactInputSingle"⟩),
   ("0xc04b8d59", ⟨"0xc04b8d59", "exactInput((bytes,address,uint256,uint256,uint256))", "exactInput"⟩),
   ("0xdb3e2198", ⟨"0xdb3e2198", "exactOutputSingle((address,address,uint24,address,uint256,uint256,uint256,uint160))", "exactOutputSingle"⟩),
   ("0x5ae401dc", ⟨"0x5ae401dc", "multicall(uint256,bytes[])", "multicall"⟩),
   ("0xac9650d8", ⟨"0xac9650d8", "multicall(bytes[])", "multicall"⟩),
   ("0xd0e30db0", ⟨"0xd0e30db0", "deposit()", "deposit"⟩),
   ("0x2e1a7d4d", ⟨"0x2e1a7d4d", "withdraw(uint256)", "withdraw"⟩),
   ("0xd505accf", ⟨"0xd505accf", "permit(address,address,uint256,uint256,uint8,bytes32,bytes32)", "permit"⟩),
   ("0x5c60da1b", ⟨"0x5c60da1b", "implementation()", "implementation"⟩),
   ("0x3659cfe6", ⟨"0x3659cfe6", "upgradeTo(address)", "upgradeTo"⟩),
   ("0x6a761202", ⟨"0x6a761202", "execTransaction(address,uint256,bytes,uint8,uint256,uint256,uint256,address,address,bytes)", "execTransaction"⟩)]

/-- Get function signature by selector (custom signatures first). -/
def getSignatureBySelector (custom : SigMap) (selector : String) :
    Option FunctionSignature :=
  let normalized := jsToLower selector
  (mapGet custom normalized).orElse fun _ => mapGet COMMON_SIGNATURES normalized

/-- Compute selector from function signature:
`keccak256(toBytes(signature)).slice(0, 10).toLowerCase()`. -/
def computeSelector (signature : String) : String :=
  jsToLower (jsSlice (keccak256Hex signature) 0 10)

/-- The regex `^(\w+)\(` name extraction in `registerSignature`. -/
def sigNameMatch? (signature : String) : Option String :=
  let name := signature.toList.takeWhile isWordChar
  if name.isEmpty then none
  else match signature.toList.drop name.length with
  | '(' :: _ => some (String.mk name)
  | _ => none

/-- Register a custom function signature. -/
def registerSignature (custom : SigMap) (signature : String) :
    SigMap × FunctionSignature :=
  let selector := computeSelector signature
  let name := (sigNameMatch? signature).getD "unknown"
  let sig : FunctionSignature := ⟨selector, signature, name⟩
  (mapSet custom selector sig, sig)

/-- The shared depth-aware split on top-level commas (each piece trimmed;
a final all-whitespace piece is dropped, intermediate ones are kept). -/
def splitTopCommasGo : List Char → Int → List Char → List String
  | [], _, current =>
    if (jsTrim (String.mk current.reverse)).isEmpty then []
    else [jsTrim (String.mk current.reverse)]
  | c :: rest, depth, current =>
    let depth' := if c = '(' then depth + 1 else if c = ')' then depth - 1 else depth
    if c = ',' ∧ depth' = 0 then
      jsTrim (String.mk current.reverse) :: splitTopCommasGo rest depth' []
    else splitTopCommasGo rest depth' (c :: current)

def splitTopCommas (s : String) : List String :=
  splitTopCommasGo s.toList 0 []

/-- The shape match of the regex `^(\w+)\((.*)\)$` shared by
`parseSignature` and `normalizeSignature`: the function name and the raw
parameter string. -/
def sigShapeMatch? (s : String) : Option (String × String) :=
  let cs := s.toList
  let name := cs.takeWhile isWordChar
  if name.isEmpty then none
  else match cs.drop name.length with
  | '(' :: rest =>
    match rest.getLast? with
    | some ')' =>
      let params := rest.dropLast
      if params.all regexDotChar then some (String.mk name, String.mk params)
      else none
    | _ => none
  | _ => none

/-- Parse function signature into its name and parameter types
(throws `Invalid function signature` on shape mismatch). -/
def parseSignature (signature : String) : Except String (String × List String) :=
  match sigShapeMatch? signature with
  | none => .error s!"Invalid function signature: {signature}"
  | some (name, paramsStr) =>
    let inputs := if paramsStr.isEmpty then [] else splitTopCommas paramsStr
    .ok (name, inputs)

/-! ## `core/decoder.ts` -/

structure TransactionInput where
  «to» : String
  data : Option String
  value : Option Int := none
  chainId : Int
  «from» : Option String := none

structure RawDecodedTransaction where
  selector : String
  signature : Option String
  functionName : Option String
  args : List JsValue
  inputTypes : List String

/-- Extract function selector from calldata
(throws when the payload is falsy or shorter than 10 characters). -/
def extractSelector (data : String) : Except String String :=
  if data.isEmpty ∨ data.length < 10 then .error "Invalid calldata: too short"
  else .ok (jsToLower (jsSlice data 0 10))

/-- The match of `/^(.+)\[(\d+)\]$/`: the base type and the fixed length.
Digits cannot contain a bracket, so the greedy `(.+)` settles on the last
`[`. -/
def fixedArrayMatch? (type : String) : Option (String × Nat) :=
  let cs := type.toList
  match cs.getLast? with
  | some ']' =>
    let body := cs.dropLast
    let afterRev := body.reverse.takeWhile (· ≠ '[')
    if afterRev.length = body.length then none
    else
      let base := body.take (body.length - afterRev.length - 1)
      let digits := afterRev.reverse
      if digits.isEmpty ∨ ¬ digits.all Char.isDigit then none
      else if base.isEmpty ∨ ¬ base.all regexDotChar then none
      else (parseDecNat? (String.mk digits)).map fun n => (String.mk base, n)
  | _ => none

structure DecodeOut where
  value : JsValue
  nextOffset : Nat

/-- `parseInt` on a one- or two-character hex chunk: the longest valid
prefix, `none` for `NaN`. -/
def hexChunkVal? (c1 : Char) (c2 : Option Char) : Option Nat :=
  match hexDigitVal? c1 with
  | none => none
  | some d1 =>
    match c2 with
    | none => some d1
    | some c =>
      match hexDigitVal? c with
      | none => some d1
      | some d2 => some (16 * d1 + d2)

/-- `hexToString`: decode pairs of hex chars into UTF-16 units, stopping at a
zero byte (`parseInt` reads a valid prefix; an invalid first digit is `NaN`,
which `fromCharCode` maps to the zero character without breaking). -/
def hexToStringGo : List Char → List Char
  | [] => []
  | [c1] =>
    match hexChunkVal? c1 none with
    | none => [Char.ofNat 0]
    | some 0 => []
    | some code => [Char.ofNat code]
  | c1 :: c2 :: rest =>
    match hexChunkVal? c1 (some c2) with
    | none => Char.ofNat 0 :: hexToStringGo rest
    | some 0 => []
    | some code => Char.ofNat code :: hexToStringGo rest

def hexToString (hex : String) : String :=
  let bytes := if jsStartsWith hex "0x" then jsSliceFrom hex 2 else hex
  String.mk (hexToStringGo bytes.toList)

/-- The item loop shared by fixed and dynamic arrays, abstracted over the
one-parameter decoder. -/
def decodeItemsGo (dp : String → Nat → Except String DecodeOut)
    (itemType : String) : Nat → Nat → Except String (List JsValue × Nat)
  | 0, offset => .ok ([], offset)
  | n + 1, offset => do
    let d ← dp itemType offset
    let rest ← decodeItemsGo dp itemType n d.nextOffset
    .ok (d.value :: rest.1, rest.2)

/-- The sequential component loop (`decodeTuple`'s body and the worker of
`decodeParameters`), abstracted over the one-parameter decoder. -/
def decodeSeqGo (dp : String → Nat → Except String DecodeOut) :
    List String → Nat → Except String (List JsValue × Nat)
  | [], offset => .ok ([], offset)
  | t :: ts, offset => do
    let d ← dp t offset
    let rest ← decodeSeqGo dp ts d.nextOffset
    .ok (d.value :: rest.1, rest.2)

/-- The recursive parameter decoder of `decoder.ts` (`decodeParameter`
together with `decodeDynamicArray`, `decodeFixedArray` and `decodeTuple`).
The source recursion is driven by the type string, which shrinks strictly on
every nested call; the explicit fuel makes the recursion structural, and the
entry point supplies fuel covering that depth. -/
def decodeParameter : Nat → String → String → Nat → Except String DecodeOut
  | 0, _, _, _ => .error "decoder recursion limit"
  | fuel + 1, type, data, offset =>
    -- Handle arrays
    if jsEndsWith type "[]" then
      let itemType := jsDropRight type 2
      let word := jsSlice data (offset * 2) ((offset + 32) * 2)
      match parseHexNat? word with
      | none => .error "Cannot convert to a BigInt"
      | some dataOffset =>
        let lengthWord := jsSlice data (dataOffset * 2) ((dataOffset + 32) * 2)
        match parseHexNat? lengthWord with
        | none => .error "Cannot convert to a BigInt"
        | some length =>
          (decodeItemsGo (fun t o => decodeParameter fuel t data o) itemType
              length (dataOffset + 32)).map fun r =>
            ⟨.ofList r.1, offset + 32⟩
    else
      match fixedArrayMatch? type with
      | some (base, len) =>
        -- Handle fixed arrays
        (decodeItemsGo (fun t o => decodeParameter fuel t data o) base
            len offset).map fun r =>
          ⟨.ofList r.1, r.2⟩
      | none =>
      if jsStartsWith type "(" ∧ jsEndsWith type ")" then
        -- Handle tuples: (address,uint256,bool) -> [address, uint256, bool]
        let types := splitTopCommas (jsDropRight (jsSliceFrom type 1) 1)
        (decodeSeqGo (fun t o => decodeParameter fuel t data o) types
            offset).map fun r =>
          ⟨.ofList r.1, r.2⟩
      else
      -- Static types (32 bytes each)
      let word := jsSlice data (offset * 2) ((offset + 32) * 2)
      if type = "address" then
        .ok ⟨.str ("0x" ++ jsSliceFrom word 24), offset + 32⟩
      else if jsStartsWith type "uint" ∨ jsStartsWith type "int" then
        match parseHexNat? word with
        | none => .error "Cannot convert to a BigInt"
        | some n => .ok ⟨.num n, offset + 32⟩
      else if type = "bool" then
        match parseHexNat? word with
        | none => .error "Cannot convert to a BigInt"
        | some n => .ok ⟨.bool (n ≠ 0), offset + 32⟩
      else if jsStartsWith type "bytes" ∧ type ≠ "bytes" then
        -- Fixed bytes (bytes1 to bytes32); a NaN size slices to the empty string
        let size := (jsParseInt? (jsSliceFrom type 5)).getD 0
        .ok ⟨.str ("0x" ++ jsSlice word 0 (size * 2)), offset + 32⟩
      else if type = "bytes" ∨ type = "string" then
        -- Dynamic types - read offset, then data
        match parseHexNat? word with
        | none => .error "Cannot convert to a BigInt"
        | some dataOffset =>
          let lengthWord := jsSlice data (dataOffset * 2) ((dataOffset + 32) * 2)
          match parseHexNat? lengthWord with
          | none => .error "Cannot convert to a BigInt"
          | some length =>
            let content := jsSlice data ((dataOffset + 32) * 2) ((dataOffset + 32 + length) * 2)
            if type = "string" then
              .ok ⟨.str (hexToString ("0x" ++ content)), offset + 32⟩
            else
              .ok ⟨.str ("0x" ++ content), offset + 32⟩
      else
        -- Unknown type - return raw
        .ok ⟨.str ("0x" ++ word), offset + 32⟩

/-- Decode ABI-encoded parameters (simplified decoder for common types). -/
def decodeParameters (types : List String) (data : String) :
    Except String (List JsValue) :=
  let bytes := if jsStartsWith data "0x" then jsSliceFrom data 2 else data
  let fuel := (types.map String.length).sum + bytes.length + 2
  (decodeSeqGo (fun t o => decodeParameter fuel t bytes o) types 0).map (·.1)

/-- Decode raw transaction calldata. -/
def decodeCalldata (custom : SigMap) (tx : TransactionInput) :
    Except String RawDecodedTransaction :=
  match tx.data with
  | none => .ok ⟨"0x", none, none, [], []⟩
  | some data =>
    if data.isEmpty ∨ data = "0x" then
      .ok ⟨"0x", none, none, [], []⟩
    else
      match extractSelector data with
      | .error e => .error e
      | .ok selector =>
        match getSignatureBySelector custom selector with
        | none =>
          -- Unknown function - return raw
          .ok ⟨selector, none, none, [.str (jsSliceFrom data 10)], ["bytes"]⟩
        | some sig =>
          match parseSignature sig.signature with
          | .error e => .error e
          | .ok (name, inputs) =>
            let paramsData := jsSliceFrom data 10
            let args :=
              match decodeParameters inputs paramsData with
              | .ok args => args
              | .error _ => [.str paramsData]  -- Fallback to raw if decoding fails
            .ok ⟨selector, some sig.signature, some name, args, inputs⟩

/-! ## A JSON-like model of JS values for `validateDescriptor`

`validateDescriptor` takes an `unknown` and performs dynamic `typeof`
checks, so it is modelled over a JSON-like value type.  `undefined` surfaces
only as the absence of an object property (`Option`). -/

inductive JVal where
  | null
  | bool (b : Bool)
  | num (n : Int)
  | str (s : String)
  | arr (vs : List JVal)
  | obj (fields : List (String × JVal))

/-- JS truthiness of a value of these shapes. -/
def JVal.truthy : JVal → Bool
  | .null => false
  | .bool b => b
  | .num n => n ≠ 0
  | .str s => s ≠ ""
  | .arr _ => true
  | .obj _ => true

/-- Truthiness of a possibly-undefined value. -/
def JVal.truthyOpt : Option JVal → Bool
  | none => false
  | some v => v.truthy

/-- `typeof v === "object"` (true for `null`, arrays and objects). -/
def JVal.typeofObject : JVal → Bool
  | .null => true
  | .arr _ => true
  | .obj _ => true
  | _ => false

/-- Property access on a non-null value: `undefined` (`none`) except for a
present object key. -/
def JVal.get : JVal → String → Option JVal
  | .obj fields, k => mapGet fields k
  | _, _ => none

/-- Whether a value is `null`. -/
def JVal.isNull : JVal → Bool
  | .null => true
  | _ => false

/-- `Object.entries` (index keys for arrays, nothing for primitives). -/
def JVal.entries : JVal → List (String × JVal)
  | .obj fields => fields
  | .arr vs => vs.enum.map fun p => (toString p.1, p.2)
  | _ => []

/-! ## `generate/validate.ts` -/

structure ValidationError where
  path : String
  message : String
deriving DecidableEq

structure ValidationResult where
  valid : Bool
  errors : List ValidationError
deriving DecidableEq

def VALID_FORMATS : List String :=
  ["raw", "addressName", "tokenAmount", "nftName", "date", "enum", "calldata",
   "duration", "unit"]

/-- The regex `^0x[a-fA-F0-9]{40}$`. -/
def isValidAddress (address : String) : Bool :=
  address.length = 42 ∧ jsStartsWith address "0x" ∧
    (jsSliceFrom address 2).toList.all fun c => (hexDigitVal? c).isSome

def validateFieldDefinition (field : JVal) (path : String) :
    List ValidationError :=
  if ¬ field.typeofObject ∨ field.isNull then
    [⟨path, "Field must be an object"⟩]
  else
    -- Validate path
    (match field.get "path" with
     | some (.str s) => if s.length = 0 then [⟨path ++ ".path", "Path must be a non-empty string"⟩] else []
     | _ => [⟨path ++ ".path", "Path must be a non-empty string"⟩]) ++
    -- Validate label
    (match field.get "label" with
     | some (.str s) => if s.length = 0 then [⟨path ++ ".label", "Label must be a non-empty string"⟩] else []
     | _ => [⟨path ++ ".label", "Label must be a non-empty string"⟩]) ++
    -- Validate format (optional)
    (match field.get "format" with
     | none => []
     | some (.str s) =>
       if VALID_FORMATS.contains s then []
       else [⟨path ++ ".format", "Format must be one of: " ++ String.intercalate ", " VALID_FORMATS⟩]
     | some _ => [⟨path ++ ".format", "Format must be one of: " ++ String.intercalate ", " VALID_FORMATS⟩])

def validateFunctionFormat (signature : String) (format : JVal) :
    List ValidationError :=
  let path := "display.formats[\"" ++ signature ++ "\"]"
  if ¬ format.typeofObject ∨ format.isNull then
    [⟨path, "Format must be an object"⟩]
  else
    -- Validate intent (optional)
    (match format.get "intent" with
     | none => []
     | some (.str _) => []
     | some _ => [⟨path ++ ".intent", "Intent must be a string"⟩]) ++
    -- Validate fields
    (match format.get "fields" with
     | some (.arr fs) =>
       (fs.enum.map fun p =>
         validateFieldDefinition p.2 (path ++ ".fields[" ++ toString p.1 ++ "]")).flatten
     | _ => [⟨path ++ ".fields", "Fields must be an array"⟩])

def validateDisplay (display : JVal) : List ValidationError :=
  if ¬ display.typeofObject ∨ display.isNull then
    [⟨"display", "Display must be an object"⟩]
  else
    match display.get "formats" with
    | some formats =>
      if ¬ formats.truthy ∨ ¬ formats.typeofObject then
        [⟨"display.formats", "Formats must be an object"⟩]
      else
        (formats.entries.map fun p => validateFunctionFormat p.1 p.2).flatten
    | none => [⟨"display.formats", "Formats must be an object"⟩]

/-- One deployment entry; accessing a property of `null` is a JS
`TypeError`, surfaced in the `Except`. -/
def validateDeployment (dep : JVal) (i : Nat) :
    Except String (List ValidationError) :=
  match dep with
  | .null => .error "TypeError"
  | _ =>
    .ok (
      (match dep.get "chainId" with
       | some (.num _) => []
       | _ => [⟨"context.contract.deployments[" ++ toString i ++ "].chainId",
               "Chain ID must be a number"⟩]) ++
      (match dep.get "address" with
       | some (.str s) =>
         if isValidAddress s then []
         else [⟨"context.contract.deployments[" ++ toString i ++ "].address",
               "Address must be a valid Ethereum address"⟩]
       | _ => [⟨"context.contract.deployments[" ++ toString i ++ "].address",
               "Address must be a valid Ethereum address"⟩]))

/-- The indexed deployment-entry loop. -/
def validateDeployments : List (Nat × JVal) → Except String (List ValidationError)
  | [] => .ok []
  | (i, dep) :: rest =>
    match validateDeployment dep i with
    | .error e => .error e
    | .ok es =>
      match validateDeployments rest with
      | .error e => .error e
      | .ok rest' => .ok (es ++ rest')

def validateContractContext (contract : JVal) :
    Except String (List ValidationError) :=
  if ¬ contract.typeofObject ∨ contract.isNull then
    .ok [⟨"context.contract", "Contract must be an object"⟩]
  else
    match contract.get "deployments" with
    | some (.arr deployments) =>
      if deployments.length = 0 then
        .ok [⟨"context.contract.deployments", "Deployments must have at least one entry"⟩]
      else
        validateDeployments deployments.enum
    | _ => .ok [⟨"context.contract.deployments", "Deployments must be an array"⟩]

def validateContext (context : JVal) : Except String (List ValidationError) :=
  if ¬ context.typeofObject ∨ context.isNull then
    .ok [⟨"context", "Context must be an object"⟩]
  else
    -- Must have either contract or eip712
    if ¬ JVal.truthyOpt (context.get "contract") ∧
        ¬ JVal.truthyOpt (context.get "eip712") then
      .ok [⟨"context", "Context must have either \"contract\" or \"eip712\""⟩]
    else
      match context.get "contract" with
      | some contract =>
        if contract.truthy then validateContractContext contract else .ok []
      | none => .ok []

def validateMetadata (metadata : JVal) : List ValidationError :=
  if ¬ metadata.typeofObject ∨ metadata.isNull then
    [⟨"metadata", "Metadata must be an object"⟩]
  else
    -- Validate owner (optional)
    (match metadata.get "owner" with
     | none => []
     | some (.str _) => []
     | some _ => [⟨"metadata.owner", "Owner must be a string"⟩]) ++
    -- Validate info (optional)
    (match metadata.get "info" with
     | none => []
     | some v =>
       if ¬ v.typeofObject ∨ v.isNull then [⟨"metadata.info", "Info must be an object"⟩]
       else [])

/-- The `display` stage of `validateDescriptor`. -/
def descriptorDisplayErrors (descriptor : JVal) : List ValidationError :=
  match descriptor.get "display" with
  | some d => if d.truthy then validateDisplay d else [⟨"display", "Display is required"⟩]
  | none => [⟨"display", "Display is required"⟩]

/-- The optional `metadata` stage of `validateDescriptor`. -/
def descriptorMetadataErrors (descriptor : JVal) : List ValidationError :=
  match descriptor.get "metadata" with
  | some m => if m.truthy then validateMetadata m else []
  | none => []

/-- The `context` stage of `validateDescriptor`. -/
def descriptorContextErrors (descriptor : JVal) :
    Except String (List ValidationError) :=
  match descriptor.get "context" with
  | some ctx =>
    if ctx.truthy then validateContext ctx
    else .ok [⟨"context", "Context is required"⟩]
  | none => .ok [⟨"context", "Context is required"⟩]

/-- Validate an ERC-7730 descriptor. -/
def validateDescriptor (descriptor : JVal) : Except String ValidationResult :=
  if ¬ descriptor.truthy ∨ ¬ descriptor.typeofObject then
    .ok ⟨false, [⟨"", "Descriptor must be an object"⟩]⟩
  else
    match descriptorContextErrors descriptor with
    | .error e => .error e
    | .ok contextErrors =>
      .ok ⟨(contextErrors ++ descriptorDisplayErrors descriptor ++
              descriptorMetadataErrors descriptor).isEmpty,
           contextErrors ++ descriptorDisplayErrors descriptor ++
             descriptorMetadataErrors descriptor⟩

/-! ## ERC-7730 descriptor data model (`types/erc7730.ts`) -/

/-- The closed field-format enumeration. -/
inductive FieldFormat where
  | raw
  | addressName
  | tokenAmount
  | nftName
  | date
  | enum
  | calldata
  | duration
  | unit
deriving DecidableEq

def FieldFormat.toTag : FieldFormat → String
  | .raw => "raw"
  | .addressName => "addressName"
  | .tokenAmount => "tokenAmount"
  | .nftName => "nftName"
  | .date => "date"
  | .enum => "enum"
  | .calldata => "calldata"
  | .duration => "duration"
  | .unit => "unit"

structure FieldDefinition where
  path : String
  label : String
  format : Option FieldFormat := none
  params : Option (List (String × String)) := none
deriving DecidableEq

structure FunctionFormat where
  intent : Option String := none
  fields : List FieldDefinition
  required : Option (List String) := none
  excluded : Option (List String) := none
deriving DecidableEq

structure ContractDeployment where
  chainId : Int
  address : String
deriving DecidableEq

structure ContractContext where
  deployments : Option (List ContractDeployment) := none
  abi : Option String := none
deriving DecidableEq

structure ERC7730Context where
  id : Option String := none
  contract : Option ContractContext := none
  eip712 : Option JVal := none

structure MetadataInfo where
  legalName : Option String := none
  url : Option String := none
  deploymentDate : Option String := none
deriving DecidableEq

structure ERC7730Metadata where
  owner : Option String := none
  info : Option MetadataInfo := none
deriving DecidableEq

structure ERC7730Display where
  formats : List (String × FunctionFormat)
deriving DecidableEq

structure ERC7730Descriptor where
  schema : Option String := none
  context : ERC7730Context
  metadata : Option ERC7730Metadata := none
  display : ERC7730Display

/-! The JS object underlying a typed descriptor (absent optional fields are
absent keys).  `validateDescriptor` receives exactly this value. -/

/-- Append a key only when the optional value is present. -/
def optField (k : String) : Option JVal → List (String × JVal)
  | none => []
  | some v => [(k, v)]

def ContractDeployment.toJVal (d : ContractDeployment) : JVal :=
  .obj [("chainId", .num d.chainId), ("address", .str d.address)]

def ContractContext.toJVal (c : ContractContext) : JVal :=
  .obj (optField "deployments"
      ((c.deployments).map fun ds => .arr (ds.map ContractDeployment.toJVal)) ++
    optField "abi" ((c.abi).map .str))

def ERC7730Context.toJVal (c : ERC7730Context) : JVal :=
  .obj (optField "$id" ((c.id).map .str) ++
    optField "contract" ((c.contract).map ContractContext.toJVal) ++
    optField "eip712" c.eip712)

def MetadataInfo.toJVal (i : MetadataInfo) : JVal :=
  .obj (optField "legalName" ((i.legalName).map .str) ++
    optField "url" ((i.url).map .str) ++
    optField "deploymentDate" ((i.deploymentDate).map .str))

def ERC7730Metadata.toJVal (m : ERC7730Metadata) : JVal :=
  .obj (optField "owner" ((m.owner).map .str) ++
    optField "info" ((m.info).map MetadataInfo.toJVal))

def FieldDefinition.toJVal (f : FieldDefinition) : JVal :=
  .obj ([("path", .str f.path), ("label", .str f.label)] ++
    optField "format" ((f.format).map fun t => .str t.toTag) ++
    optField "params" ((f.params).map fun ps => .obj (ps.map fun p => (p.1, .str p.2))))

def FunctionFormat.toJVal (f : FunctionFormat) : JVal :=
  .obj (optField "intent" ((f.intent).map .str) ++
    [("fields", .arr (f.fields.map FieldDefinition.toJVal))] ++
    optField "required" ((f.required).map fun rs => .arr (rs.map .str)) ++
    optField "excluded" ((f.excluded).map fun rs => .arr (rs.map .str)))

def ERC7730Display.toJVal (d : ERC7730Display) : JVal :=
  .obj [("formats", .obj (d.formats.map fun p => (p.1, p.2.toJVal)))]

def ERC7730Descriptor.toJVal (d : ERC7730Descriptor) : JVal :=
  .obj (optField "$schema" ((d.schema).map .str) ++
    [("context", d.context.toJVal)] ++
    optField "metadata" ((d.metadata).map ERC7730Metadata.toJVal) ++
    [("display", d.display.toJVal)])

/-! ## Built-in descriptors (`registry/erc20.ts`, `registry/erc721.ts`,
`registry/weth.ts`) -/

def ERC20_DESCRIPTOR : ERC7730Descriptor :=
  { schema := some "https://eips.ethereum.org/assets/eip-7730/erc7730-v1.schema.json"
    context :=
      { id := some "ERC20"
        contract := some { deployments := some [] } }
    metadata := some
      { owner := some "ERC-20 Standard"
        info := some { url := some "https://eips.ethereum.org/EIPS/eip-20" } }
    display :=
      { formats :=
          [("transfer(address,uint256)",
            { intent := some "Send tokens"
              fields :=
                [{ path := "to", label := "Recipient", format := some .addressName },
                 { path := "amount", label := "Amount", format := some .tokenAmount }] }),
           ("approve(address,uint256)",
            { intent := some "Approve spending"
              fields :=
                [{ path := "spender", label := "Spender", format := some .addressName },
                 { path := "amount", label := "Amount", format := some .tokenAmount }] }),
           ("transferFrom(address,address,uint256)",
            { intent := some "Transfer tokens (on behalf)"
              fields :=
                [{ path := "from", label := "From", format := some .addressName },
                 { path := "to", label := "To", format := some .addressName },
                 { path := "amount", label := "Amount", format := some .tokenAmount }] }),
           ("increaseAllowance(address,uint256)",
            { intent := some "Increase allowance"
              fields :=
                [{ path := "spender", label := "Spender", format := some .addressName },
                 { path := "addedValue", label := "Additional Amount", format := some .tokenAmount }] }),
           ("decreaseAllowance(address,uint256)",
            { intent := some "Decrease allowance"
              fields :=
                [{ path := "spender", label := "Spender", format := some .addressName },
                 { path := "subtractedValue", label := "Reduced Amount", format := some .tokenAmount }] })] } }

def ERC721_DESCRIPTOR : ERC7730Descriptor :=
  { schema := some "https://eips.ethereum.org/assets/eip-7730/erc7730-v1.schema.json"
    context :=
      { id := some "ERC721"
        contract := some { deployments := some [] } }
    metadata := some
      { owner := some "ERC-721 Standard"
        info := some { url := some "https://eips.ethereum.org/EIPS/eip-721" } }
    display :=
      { formats :=
          [("safeTransferFrom(address,address,uint256)",
            { intent := some "Transfer NFT"
              fields :=
                [{ path := "from", label := "From", format := some .addressName },
                 { path := "to", label := "To", format := some .addressName },
                 { path := "tokenId", label := "Token ID", format := some .raw }] }),
           ("safeTransferFrom(address,address,uint256,bytes)",
            { intent := some "Transfer NFT (with data)"
              fields :=
                [{ path := "from", label := "From", format := some .addressName },
                 { path := "to", label := "To", format := some .addressName },
                 { path := "tokenId", label := "Token ID", format := some .raw }] }),
           ("transferFrom(address,address,uint256)",
            { intent := some "Transfer NFT (unsafe)"
              fields :=
                [{ path := "from", label := "From", format := some .addressName },
                 { path := "to", label := "To", format := some .addressName },
                 { path := "tokenId", label := "Token ID", format := some .raw }] }),
           ("approve(address,uint256)",
            { intent := some "Approve NFT transfer"
              fields :=
                [{ path := "spender", label := "Approved Address", format := some .addressName },
                 { path := "amount", label := "Token ID", format := some .raw }] }),
           ("setApprovalForAll(address,bool)",
            { intent := some "Set approval for all NFTs"
              fields :=
                [{ path := "operator", label := "Operator", format := some .addressName },
                 { path := "approved", label := "Approved", format := some .raw }] })] } }

def WETH_DESCRIPTOR : ERC7730Descriptor :=
  { schema := some "https://eips.ethereum.org/assets/eip-7730/erc7730-v1.schema.json"
    context :=
      { id := some "WETH"
        contract := some
          { deployments := some
              [{ chainId := 1, address := "0xC02aaA39b223FE8D0A0e5C4F27eAD9083C756Cc2" },
               { chainId := 42161, address := "0x82aF49447D8a07e3bd95BD0d56f35241523fBab1" },
               { chainId := 10, address := "0x4200000000000000000000000000000000000006" },
               { chainId := 8453, address := "0x4200000000000000000000000000000000000006" },
               { chainId := 137, address := "0x7ceB23fD6bC0adD59E62ac25578270cFf1b9f619" }] } }
    metadata := some
      { owner := some "WETH"
        info := some { url := some "https://weth.io" } }
    display :=
      { formats :=
          [("deposit()", { intent := some "Wrap ETH", fields := [] }),
           ("withdraw(uint256)",
            { intent := some "Unwrap ETH"
              fields :=
                [{ path := "wad", label := "Amount", format := some .tokenAmount,
                   params := some [("tokenPath", "@.to")] }] })] } }

/-! ## `registry/index.ts` -/

/-- Built-in descriptors; order matters, first match wins on collisions. -/
def BUILTIN_DESCRIPTORS : List ERC7730Descriptor :=
  [WETH_DESCRIPTOR, ERC20_DESCRIPTOR, ERC721_DESCRIPTOR]

structure RegistryMatch where
  descriptor : ERC7730Descriptor
  format : FunctionFormat

/-- `findMatchingParen`: index of the `)` closing the first `(`, or the
string's length. -/
def findMatchingParenGo : List Char → Int → Nat → Nat → Nat
  | [], _, _, len => len
  | c :: rest, depth, i, len =>
    if c = '(' then findMatchingParenGo rest (depth + 1) (i + 1) len
    else if c = ')' then
      if depth - 1 = 0 then i else findMatchingParenGo rest (depth - 1) (i + 1) len
    else findMatchingParenGo rest depth (i + 1) len

def findMatchingParen (s : String) : Nat :=
  findMatchingParenGo s.toList 0 0 s.length

/-- `extractType`: `"uint256 amount"` keeps `"uint256"`; a tuple recurses
into its component list and keeps its suffix.  The fuel makes the mutual
recursion with `parseParamTypes` structural; the entry point supplies more
fuel than the bracket-nesting depth. -/
def extractTypeGo : Nat → String → String
  | 0, param => param
  | fuel + 1, param =>
    if jsStartsWith param "(" then
      let tupleEnd := findMatchingParen param
      let tupleContent := jsSlice param 1 tupleEnd
      let suffix := jsTrim (jsSliceFrom param (tupleEnd + 1))
      let innerTypes :=
        if (jsTrim tupleContent).isEmpty then []
        else (splitTopCommas tupleContent).map (extractTypeGo fuel)
      "(" ++ String.intercalate "," innerTypes ++ ")" ++ suffix
    else
      String.mk (param.toList.takeWhile fun c => ¬ c.isWhitespace)

/-- Parse a parameter string and extract the types only. -/
def parseParamTypes (params : String) : List String :=
  if (jsTrim params).isEmpty then []
  else (splitTopCommas params).map (extractTypeGo (params.length + 1))

/-- Normalize a function signature to canonical form:
`"transfer(address to, uint256 amount)"` becomes
`"transfer(address,uint256)"`; a `0x`-prefixed selector is lower-cased; a
string not matching the signature shape is returned unchanged. -/
def normalizeSignature (signature : String) : String :=
  if jsStartsWith signature "0x" then jsToLower signature
  else
    match sigShapeMatch? signature with
    | none => signature
    | some (name, params) =>
      name ++ "(" ++ String.intercalate "," (parseParamTypes params) ++ ")"

/-- The lazily-built index of the built-in tier (first match wins). -/
def builtinSignatureIndex : List (String × RegistryMatch) :=
  BUILTIN_DESCRIPTORS.foldl (fun index descriptor =>
    descriptor.display.formats.foldl (fun index p =>
      let normalized := normalizeSignature p.1
      if (mapGet index normalized).isSome then index
      else mapSet index normalized ⟨descriptor, p.2⟩) index) []

/-- The `Registry` instance state (the external community tier is embedded
data produced at build time; its `findBySelector` lookup is abstracted as the
`ext` oracle passed to `Registry.find`). -/
structure Registry where
  customDescriptors : List ERC7730Descriptor := []
  customIndex : List (String × RegistryMatch) := []
  useExternalRegistry : Bool := true

/-- Find a descriptor for a function signature or selector: custom tier,
then external tier (selector keys only), then built-in tier. -/
def Registry.find (ext : String → List RegistryMatch) (reg : Registry)
    (signature : String) : Option RegistryMatch :=
  let normalized := normalizeSignature signature
  -- 1. Check custom first (allows user overrides)
  match mapGet reg.customIndex normalized with
  | some custom => some custom
  | none =>
    -- 2. Check external registry (community descriptors)
    if reg.useExternalRegistry ∧ jsStartsWith normalized "0x" then
      match ext normalized with
      | m :: _ => some m
      | [] => mapGet builtinSignatureIndex normalized
    else
      -- 3. Check built-in (ERC20, ERC721, etc.)
      mapGet builtinSignatureIndex normalized

/-- `extend`'s per-format indexing loop: index under the normalized
signature, and for non-selector keys also register the signature with the
decoder and index under its computed selector. -/
def extendIndexFormats (descriptor : ERC7730Descriptor) :
    List (String × FunctionFormat) → List (String × RegistryMatch) × SigMap →
    List (String × RegistryMatch) × SigMap
  | [], acc => acc
  | p :: rest, (index, sigs) =>
    let normalized := normalizeSignature p.1
    let index := mapSet index normalized ⟨descriptor, p.2⟩
    -- Register signature with the decoder so it can decode the calldata
    if ¬ jsStartsWith p.1 "0x" then
      extendIndexFormats descriptor rest
        (mapSet index (computeSelector p.1) ⟨descriptor, p.2⟩,
         (registerSignature sigs p.1).1)
    else
      extendIndexFormats descriptor rest (index, sigs)

/-- The descriptor loop of `extend`. -/
def extendGo (reg : Registry) (sigs : SigMap) (results : List ValidationResult) :
    List ERC7730Descriptor →
    Except String (Registry × SigMap × List ValidationResult)
  | [] => .ok (reg, sigs, results)
  | descriptor :: rest =>
    match validateDescriptor descriptor.toJVal with
    | .error e => .error e
    | .ok validation =>
      if validation.valid then
        let (index, sigs') :=
          extendIndexFormats descriptor descriptor.display.formats
            (reg.customIndex, sigs)
        extendGo
          { reg with
            customDescriptors := reg.customDescriptors ++ [descriptor]
            customIndex := index }
          sigs' (results ++ [validation]) rest
      else
        -- Invalid descriptor at this index: report and skip
        extendGo reg sigs (results ++ [validation]) rest

/-- Add custom descriptors: validate each, skip invalid ones, index valid
ones, and register their signatures with the decoder. -/
def Registry.extend (reg : Registry) (sigs : SigMap)
    (toAdd : List ERC7730Descriptor) :
    Except String (Registry × SigMap × List ValidationResult) :=
  extendGo reg sigs [] toAdd

/-! ## `formats/tokenAmount.ts` -/

structure TokenInfo where
  symbol : String
  decimals : Nat
deriving DecidableEq

/-- Well-known tokens (chainId -> address -> info). -/
def KNOWN_TOKENS : List (Int × List (String × TokenInfo)) :=
  [ -- Ethereum Mainnet
   (1,
    [("0xa0b86991c6218b36c1d19d4a2e9eb0ce3606eb48", ⟨"USDC", 6⟩),
     ("0xdac17f958d2ee523a2206206994597c13d831ec7", ⟨"USDT", 6⟩),
     ("0x6b175474e89094c44da98b954eedeac495271d0f", ⟨"DAI", 18⟩),
     ("0xc02aaa39b223fe8d0a0e5c4f27ead9083c756cc2", ⟨"WETH", 18⟩),
     ("0x2260fac5e5542a773aa44fbcfedf7c193bc2c599", ⟨"WBTC", 8⟩),
     ("0x514910771af9ca656af840dff83e8264ecf986ca", ⟨"LINK", 18⟩),
     ("0x1f9840a85d5af5bf1d1762f925bdaddc4201f984", ⟨"UNI", 18⟩),
     ("0x7fc66500c84a76ad7e9c93437bfc5ac33e2ddae9", ⟨"AAVE", 18⟩),
     ("0x95ad61b0a150d79219dcf64e1e6cc01f0b64c4ce", ⟨"SHIB", 18⟩),
     ("0x4d224452801aced8b2f0aebe155379bb5d594381", ⟨"APE", 18⟩)]),
   -- Arbitrum
   (42161,
    [("0xaf88d065e77c8cc2239327c5edb3a432268e5831", ⟨"USDC", 6⟩),
     ("0xfd086bc7cd5c481dcc9c85ebe478a1c0b69fcbb9", ⟨"USDT", 6⟩),
     ("0xda10009cbd5d07dd0cecc66161fc93d7c9000da1", ⟨"DAI", 18⟩),
     ("0x82af49447d8a07e3bd95bd0d56f35241523fbab1", ⟨"WETH", 18⟩)]),
   -- Optimism
   (10,
    [("0x0b2c639c533813f4aa9d7837caf62653d097ff85", ⟨"USDC", 6⟩),
     ("0x94b008aa00579c1307b0ef2c499ad98a8ce58e58", ⟨"USDT", 6⟩),
     ("0xda10009cbd5d07dd0cecc66161fc93d7c9000da1", ⟨"DAI", 18⟩),
     ("0x4200000000000000000000000000000000000006", ⟨"WETH", 18⟩)]),
   -- Base
   (8453,
    [("0x833589fcd6edb6e08f4c7c32d4f71b54bda02913", ⟨"USDC", 6⟩),
     ("0x4200000000000000000000000000000000000006", ⟨"WETH", 18⟩)]),
   -- Polygon
   (137,
    [("0x2791bca1f2de4661ed88a30c99a7a9449aa84174", ⟨"USDC.e", 6⟩),
     ("0x3c499c542cef5e3811e1192ce70d8cc03d5c3359", ⟨"USDC", 6⟩),
     ("0xc2132d05d31c914a87c6611c10748aeb04b58e8f", ⟨"USDT", 6⟩),
     ("0x8f3cf7ad23cd3cadbd9735aff958023239c6a063", ⟨"DAI", 18⟩),
     ("0x7ceb23fd6bc0add59e62ac25578270cff1b9f619", ⟨"WETH", 18⟩)])]

/-- Native currency info by chainId. -/
def NATIVE_CURRENCY : List (Int × TokenInfo) :=
  [(1, ⟨"ETH", 18⟩), (10, ⟨"ETH", 18⟩), (137, ⟨"MATIC", 18⟩),
   (8453, ⟨"ETH", 18⟩), (42161, ⟨"ETH", 18⟩), (43114, ⟨"AVAX", 18⟩),
   (56, ⟨"BNB", 18⟩)]

def INFINITE_THRESHOLD : Int := 2 ^ 255

/-- Get token info from the bundled cache.  The source is async and can also
read `symbol`/`decimals` on-chain through a provider; the modelled
configuration has no provider (`provider = null`), where only the cache
lookup remains. -/
def getTokenInfo (address : String) (chainId : Int) : Option TokenInfo :=
  let normalized := jsToLower address
  match (KNOWN_TOKENS.find? fun p => p.1 = chainId) with
  | some (_, table) => mapGet table normalized
  | none => none

/-- The regex-based thousands grouping of `formatWithCommas`. -/
def groupThousands (ds : List Char) : String :=
  String.intercalate "," (((chunks 3 ds.reverse).map List.reverse).reverse.map String.mk)

/-- Add thousand separators to a number. -/
def formatWithCommas (n : Int) : String :=
  match (toString n).toList with
  | '-' :: ds => "-" ++ groupThousands ds
  | ds => groupThousands ds

/-- JS `str.padStart(len, '0')`. -/
def padStartZeros (s : String) (len : Nat) : String :=
  String.mk (List.replicate (len - s.length) '0') ++ s

/-- Format a raw amount with decimals and symbol. -/
def formatAmount (rawAmount : Int) (decimals : Nat) (symbol : Option String) :
    String :=
  let amount := rawAmount
  -- Check for "infinite" approval
  if INFINITE_THRESHOLD ≤ amount then
    match symbol with
    | some s => "Unlimited " ++ s
    | none => "Unlimited"
  else
    -- Format with decimals (BigInt / and % truncate toward zero)
    let divisor : Int := 10 ^ decimals
    let integerPart := Int.tdiv amount divisor
    let fractionalPart := Int.tmod amount divisor
    let formatted :=
      if fractionalPart = 0 then formatWithCommas integerPart
      else
        let fractionalStr := padStartZeros (toString fractionalPart) decimals
        -- Remove trailing zeros
        let trimmed := String.mk (fractionalStr.toList.reverse.dropWhile (· = '0')).reverse
        -- Limit decimal places for readability
        let displayDecimals := min trimmed.length 6
        formatWithCommas integerPart ++ "." ++ jsSlice trimmed 0 displayDecimals
    match symbol with
    | some s => formatted ++ " " ++ s
    | none => formatted

/-- Check whether an amount represents an "infinite" approval
(`BigInt(amount) >= INFINITE_THRESHOLD`; the coercion can throw). -/
def isInfiniteApproval? (amount : JsValue) : Option Bool :=
  (jsToBigInt? amount).map fun n => decide (INFINITE_THRESHOLD ≤ n)

/-! ## `formats/addressName.ts` (absent from the provided sources) -/

/-- Modelled from the spec: the file `formats/addressName.ts` implementing
`resolveAddress`/`formatAddress` is not among the provided sources.  §4.8
describes the formatter as: null/burn/native-sentinel addresses
short-circuit to fixed labels, then a static known-address table, then an
optional reverse-name capability restricted to an allow-list of chains
(absent here because the modelled configuration has no provider), else a
truncated address rendering.  No claim depends on the exact strings. -/
def resolveAndFormatAddress (address : String) (_chainId : Int) : String :=
  let lower := jsToLower address
  if lower = "0x0000000000000000000000000000000000000000" then "Null Address"
  else if lower = "0x000000000000000000000000000000000000dead" then "Burn Address"
  else if lower = "0xeeeeeeeeeeeeeeeeeeeeeeeeeeeeeeeeeeeeeeee" then "Native Token"
  else jsSlice address 0 6 ++ "…" ++ jsSliceFrom address (address.length - 4)

/-! ## `core/ClearSigner.ts` -/

inductive Confidence where
  | high
  | medium
  | low
deriving DecidableEq

inductive Source where
  | registry
  | sourcify
  | inferred
  | basic
deriving DecidableEq

structure DecodedField where
  label : String
  value : String
  rawValue : JsValue
  path : String
  format : Option FieldFormat
deriving DecidableEq

structure SecurityWarning where
  typ : String
  severity : String
  message : String
deriving DecidableEq

structure DecodedTransaction where
  confidence : Confidence
  source : Source
  intent : String
  functionName : String
  signature : String
  fields : List DecodedField
  warnings : List SecurityWarning
  metadataChainId : Int
  metadataContractAddress : String
  rawSelector : String
  rawArgs : List JsValue
deriving DecidableEq

/-- The mutable state owned by a `ClearSigner` instance: the decoder's
signature table, the registry and the Sourcify cache. -/
structure SignerState where
  sigs : SigMap := []
  registry : Registry := {}
  sourcifyCache : List (String × Option ERC7730Descriptor) := []

/-- The configuration and external collaborators of a decode run: the
Sourcify flag, the composed `fetchFromSourcify` + `generateDescriptor`
network oracle (`none` for "not verified" and for any network or parsing
failure), the external community-registry lookup, and the locale date
renderer.  The RPC provider is `null` in the modelled configuration. -/
structure DecodeEnv where
  useSourcifyFallback : Bool
  sourcifyGen : Int → String → Option ERC7730Descriptor
  ext : String → List RegistryMatch
  dateRender : JsValue → String

/-- Common parameter names for known function signatures. -/
def getParamNames (signature : String) : List String :=
  let knownParams : List (String × List String) :=
    [ -- ERC20
     ("transfer(address,uint256)", ["to", "amount"]),
     ("approve(address,uint256)", ["spender", "amount"]),
     ("transferFrom(address,address,uint256)", ["from", "to", "amount"]),
     ("increaseAllowance(address,uint256)", ["spender", "addedValue"]),
     ("decreaseAllowance(address,uint256)", ["spender", "subtractedValue"]),
     -- ERC721
     ("safeTransferFrom(address,address,uint256)", ["from", "to", "tokenId"]),
     ("safeTransferFrom(address,address,uint256,bytes)", ["from", "to", "tokenId", "data"]),
     ("setApprovalForAll(address,bool)", ["operator", "approved"]),
     -- WETH
     ("withdraw(uint256)", ["amount"]),
     ("deposit()", [])]
  (mapGet knownParams signature).getD []

/-- Build the arg map from decoded calldata: index paths `[i]` always, and
the known parameter names when the signature is known. -/
def buildArgMap (raw : RawDecodedTransaction) : List (String × JsValue) :=
  let map := raw.args.enum.foldl (fun m p =>
    mapSet m ("[" ++ toString p.1 ++ "]") p.2) []
  match raw.signature with
  | none => map
  | some sig =>
    if sig = "" then map
    else
      let paramNames := getParamNames sig
      paramNames.enum.foldl (fun m p =>
        match raw.args[p.1]? with
        | some arg => if p.2 ≠ "" then mapSet m p.2 arg else m
        | none => m) map

/-- Resolve a field path to a value (`null` when nothing matches). -/
def resolveFieldPath (path : String) (argMap : List (String × JsValue))
    (tx : TransactionInput) : JsValue :=
  if path = "@.to" then .str tx.to
  else if path = "@.from" then
    match tx.from with
    | some f => .str f
    | none => .undef
  else if path = "@.value" then
    match tx.value with
    | some v => .num v
    | none => .undef
  else
    match mapGet argMap path with
    | some v => v
    | none =>
      match mapGet argMap ("[" ++ path ++ "]") with
      | some v => v
      | none => .null

/-- Format a token amount with decimals and symbol (the `BigInt` coercion
can throw). -/
def formatTokenAmountField (tx : TransactionInput) (value : JsValue) :
    Except String String :=
  if value = .null ∨ value = .undef then .ok "Unknown"
  else
    match jsToBigInt? value with
    | none => .error "Cannot convert to a BigInt"
    | some amount =>
      -- Try to get token info from contract address (skip if zero address)
      let isValidContract :=
        tx.to ≠ "" ∧ tx.to ≠ "0x0000000000000000000000000000000000000000"
      if isValidContract then
        match getTokenInfo tx.to tx.chainId with
        | some tokenInfo =>
          .ok (formatAmount amount tokenInfo.decimals (some tokenInfo.symbol))
        | none => .ok (toString amount ++ " (raw units)")
      else
        -- Without token info, show raw value with unit notation
        .ok (toString amount ++ " (raw units)")

/-- Format an address (ENS resolution is unavailable without a provider). -/
def formatAddressNameField (value : JsValue) (chainId : Int) : String :=
  match value with
  | .str s => if s = "" then "Unknown" else resolveAndFormatAddress s chainId
  | _ => "Unknown"

/-- Format a date from a timestamp through the locale renderer. -/
def formatDateField (env : DecodeEnv) (value : JsValue) : String :=
  if value = .null ∨ value = .undef then "Unknown" else env.dateRender value

/-- Format a raw value. -/
def formatRaw (value : JsValue) : String :=
  match value with
  | .null => "Unknown"
  | .undef => "Unknown"
  | .num n => toString n
  | .bool b => if b then "Yes" else "No"
  | v => jsString v

/-- Process a single field according to its format. -/
def processField (env : DecodeEnv) (tx : TransactionInput)
    (fieldDef : FieldDefinition) (argMap : List (String × JsValue)) :
    Except String DecodedField := do
  let rawValue := resolveFieldPath fieldDef.path argMap tx
  let formattedValue ←
    match fieldDef.format with
    | some .tokenAmount => formatTokenAmountField tx rawValue
    | some .addressName => pure (formatAddressNameField rawValue tx.chainId)
    | some .date => pure (formatDateField env rawValue)
    | _ => pure (formatRaw rawValue)
  .ok ⟨fieldDef.label, formattedValue, rawValue, fieldDef.path, fieldDef.format⟩

/-- Check for security warnings on a field (the only built-in rule:
infinite approval). -/
def checkFieldWarnings (fieldDef : FieldDefinition) (field : DecodedField)
    (raw : RawDecodedTransaction) : Except String (List SecurityWarning) :=
  if fieldDef.format = some .tokenAmount ∧ raw.functionName = some "approve" ∧
      field.rawValue ≠ .null then
    match isInfiniteApproval? field.rawValue with
    | none => .error "Cannot convert to a BigInt"
    | some true =>
      .ok [⟨"infinite_approval", "high",
        "This approval grants unlimited spending access to your tokens"⟩]
    | some false => .ok []
  else .ok []

/-- Worker for `strIncludes`: check the pattern at every start position. -/
def strIncludesGo (sub : List Char) : List Char → Bool
  | [] => sub.isPrefixOf []
  | c :: rest => sub.isPrefixOf (c :: rest) ∨ strIncludesGo sub rest

/-- Substring containment (JS `String.prototype.includes`). -/
def strIncludes (s sub : String) : Bool :=
  strIncludesGo sub.toList s.toList

/-- Infer intent from the function name. -/
def inferIntent (functionName : Option String) : String :=
  match functionName with
  | none => "Contract interaction"
  | some name =>
    if name = "" then "Contract interaction"
    else
      let patterns : List (String × String) :=
        [("transfer", "Send tokens"), ("approve", "Approve spending"),
         ("swap", "Swap tokens"), ("deposit", "Deposit"),
         ("withdraw", "Withdraw"), ("stake", "Stake"), ("unstake", "Unstake"),
         ("claim", "Claim rewards"), ("mint", "Mint"), ("burn", "Burn"),
         ("execute", "Execute"), ("multicall", "Multiple calls")]
      let lower := jsToLower name
      match patterns.find? fun p => strIncludes lower p.1 with
      | some p => p.2
      | none =>
        -- Capitalize function name
        match name.toList with
        | [] => ""
        | c :: rest => String.mk (c.toUpper :: rest)

/-- The `raw.functionName || 'unknown'` coalescing. -/
def functionNameOrUnknown (raw : RawDecodedTransaction) : String :=
  match raw.functionName with
  | some n => if n = "" then "unknown" else n
  | none => "unknown"

/-- The `raw.signature || raw.selector` coalescing. -/
def signatureOrSelector (raw : RawDecodedTransaction) : String :=
  match raw.signature with
  | some s => if s = "" then raw.selector else s
  | none => raw.selector

/-- Truthiness of the optional signature (`raw.signature ? … : …`). -/
def sigTruthy (raw : RawDecodedTransaction) : Bool :=
  match raw.signature with
  | some s => s ≠ ""
  | none => false

/-- The field/warning loop of `buildFromDescriptor`. -/
def processFields (env : DecodeEnv) (tx : TransactionInput)
    (raw : RawDecodedTransaction) (argMap : List (String × JsValue)) :
    List FieldDefinition →
    Except String (List DecodedField × List SecurityWarning)
  | [] => .ok ([], [])
  | fieldDef :: rest => do
    let field ← processField env tx fieldDef argMap
    let fieldWarnings ← checkFieldWarnings fieldDef field raw
    let (fs, ws) ← processFields env tx raw argMap rest
    .ok (field :: fs, fieldWarnings ++ ws)

/-- Build the decoded result from an ERC-7730 descriptor format. -/
def buildFromDescriptor (env : DecodeEnv) (tx : TransactionInput)
    (raw : RawDecodedTransaction) (format : FunctionFormat) (source : Source) :
    Except String DecodedTransaction :=
  match processFields env tx raw (buildArgMap raw) format.fields with
  | .error e => .error e
  | .ok (fields, warnings) =>
  let intent :=
    match format.intent with
    | some s => if s = "" then inferIntent raw.functionName else s
    | none => inferIntent raw.functionName
  .ok
    { confidence := .high
      source := source
      intent := intent
      functionName := functionNameOrUnknown raw
      signature := signatureOrSelector raw
      fields := fields
      warnings := warnings
      metadataChainId := tx.chainId
      metadataContractAddress := tx.to
      rawSelector := raw.selector
      rawArgs := raw.args }

/-- Check whether a value looks like a token amount (not a small id/flag and
not address-sized); an invalid `BigInt` coercion makes both comparisons
false, so the check passes. -/
def looksLikeAmount (value : JsValue) : Bool :=
  match jsCompareBigInt? value with
  | none => true
  | some n =>
    -- Very small numbers are likely IDs or flags
    if n < 1000 then false
    -- Very large numbers that look like addresses are not amounts
    else if 2 ^ 160 < n then false
    else true

/-- The per-argument loop of `buildInferred`. -/
def buildInferredFields (tx : TransactionInput) (inputTypes : List String) :
    List JsValue → Nat → Except String (List DecodedField)
  | [], _ => .ok []
  | value :: rest, i => do
    let type :=
      match inputTypes[i]? with
      | some t => if t = "" then "unknown" else t
      | none => "unknown"
    let (formattedValue, format) ←
      if type = "address" then
        pure (formatAddressNameField value tx.chainId, some FieldFormat.addressName)
      else if jsStartsWith type "uint" ∧ looksLikeAmount value then do
        let f ← formatTokenAmountField tx value
        pure (f, some FieldFormat.tokenAmount)
      else
        pure (formatRaw value, some FieldFormat.raw)
    let fields ← buildInferredFields tx inputTypes rest (i + 1)
    .ok (⟨"Param " ++ toString (i + 1), formattedValue, value,
          "[" ++ toString i ++ "]", format⟩ :: fields)

/-- Build the inferred result when no descriptor matches. -/
def buildInferred (tx : TransactionInput) (raw : RawDecodedTransaction) :
    Except String DecodedTransaction :=
  match buildInferredFields tx raw.inputTypes raw.args 0 with
  | .error e => .error e
  | .ok fields =>
  .ok
    { confidence := if sigTruthy raw then .medium else .low
      source := if sigTruthy raw then .inferred else .basic
      intent := inferIntent raw.functionName
      functionName := functionNameOrUnknown raw
      signature := signatureOrSelector raw
      fields := fields
      warnings := []
      metadataChainId := tx.chainId
      metadataContractAddress := tx.to
      rawSelector := raw.selector
      rawArgs := raw.args }

/-- Find the matching format for the raw transaction inside a descriptor. -/
def findMatchInDescriptor (descriptor : ERC7730Descriptor)
    (raw : RawDecodedTransaction) : Option RegistryMatch :=
  match raw.signature with
  | none => none
  | some sig =>
    if sig = "" then none
    else
      match mapGet descriptor.display.formats sig with
      | some format => some ⟨descriptor, format⟩
      | none => none

/-- Try the Sourcify fallback: consult the per-instance cache, otherwise ask
the network oracle, register the generated descriptor, re-decode with the
newly registered signatures and look for a matching format.  Network,
generation and registration failures are caught and cached as negative. -/
def trySourcify (env : DecodeEnv) (st : SignerState) (tx : TransactionInput) :
    Except String (Option (RegistryMatch × RawDecodedTransaction) × SignerState) :=
  let cacheKey := toString tx.chainId ++ ":" ++ jsToLower tx.to
  match mapGet st.sourcifyCache cacheKey with
  | some cached =>
    -- Cache hit (positive or negative)
    match cached with
    | some descriptor =>
      -- Re-decode with new signatures registered
      match decodeCalldata st.sigs tx with
      | .error e => .error e
      | .ok updatedRaw =>
        match findMatchInDescriptor descriptor updatedRaw with
        | some m => .ok (some (m, updatedRaw), st)
        | none => .ok (none, st)
    | none => .ok (none, st)
  | none =>
    match env.sourcifyGen tx.chainId tx.to with
    | none =>
      -- Not verified, no interface, or a caught network/parse failure:
      -- cache the negative result
      .ok (none, { st with sourcifyCache := mapSet st.sourcifyCache cacheKey none })
    | some descriptor =>
      -- Register the descriptor for future lookups
      -- (this also registers the function signatures)
      match st.registry.extend st.sigs [descriptor] with
      | .error _ =>
        -- Caught: cached as negative
        .ok (none, { st with sourcifyCache := mapSet st.sourcifyCache cacheKey none })
      | .ok (registry', sigs', _) =>
        let st1 : SignerState :=
          { sigs := sigs', registry := registry',
            sourcifyCache := mapSet st.sourcifyCache cacheKey (some descriptor) }
        match decodeCalldata sigs' tx with
        | .error _ =>
          -- Caught after the registry was already extended
          .ok (none, { st1 with
            sourcifyCache := mapSet st1.sourcifyCache cacheKey none })
        | .ok updatedRaw =>
          match findMatchInDescriptor descriptor updatedRaw with
          | some m => .ok (some (m, updatedRaw), st1)
          | none => .ok (none, st1)

/-- `ClearSigner.decode`: the decode state machine.  Step 1 decodes the raw
calldata; step 2/3 builds from a registry descriptor hit; step 4 runs the
Sourcify fallback when enabled for a usable destination; step 5 falls back
to inferred decoding. -/
def decode (env : DecodeEnv) (st : SignerState) (tx : TransactionInput) :
    Except String (DecodedTransaction × SignerState) :=
  -- Step 1: Decode raw calldata
  match decodeCalldata st.sigs tx with
  | .error e => .error e
  | .ok raw =>
    -- Step 2: Find matching descriptor in registry
    match
      (match raw.signature with
       | some s => if s = "" then none else st.registry.find env.ext s
       | none => none) with
    -- Step 3: Build decoded result from registry
    | some m => (buildFromDescriptor env tx raw m.format .registry).map (·, st)
    | none =>
      -- Step 4: Try Sourcify fallback if enabled and we have a valid contract
      if env.useSourcifyFallback ∧ tx.to ≠ "" ∧
          tx.to ≠ "0x0000000000000000000000000000000000000000" then
        match trySourcify env st tx with
        | .error e => .error e
        | .ok (some (m, updatedRaw), st') =>
          (buildFromDescriptor env tx updatedRaw m.format .sourcify).map (·, st')
        | .ok (none, st') =>
          -- Step 5: Fallback to inferred decoding
          (buildInferred tx raw).map (·, st')
      else
        (buildInferred tx raw).map (·, st)

/-! ## Verification helpers -/

/-- Whether an `Except` computation succeeded. -/
def isOkE {ε α : Type} : Except ε α → Bool
  | .ok _ => true
  | .error _ => false

/-- The offline configuration (Sourcify fallback disabled, empty external
registry), matching the repository's test setup. -/
def offlineEnv : DecodeEnv :=
  { useSourcifyFallback := false
    sourcifyGen := fun _ _ => none
    ext := fun _ => []
    dateRender := fun _ => "" }

/-- An `approve(address,uint256)` call against a (non-tabled) contract with
the given 32-byte amount word. -/
def approveTx (amountWord : String) : TransactionInput :=
  { «to» := "0x1234567890123456789012345678901234567890"
    data := some ("0x095ea7b3" ++
      "000000000000000000000000def1c0ded9bec7f1a1670819833240f027b25eff" ++
      amountWord)
    chainId := 1 }

/-- The amount word `2 ^ 256 - 1`. -/
def wordMax : String :=
  "ffffffffffffffffffffffffffffffffffffffffffffffffffffffffffffffff"

/-- The amount word `2 ^ 255`. -/
def wordHalf : String :=
  "8000000000000000000000000000000000000000000000000000000000000000"

/-- The amount word `2 ^ 255 - 1`. -/
def wordHalfMinus : String :=
  "7fffffffffffffffffffffffffffffffffffffffffffffffffffffffffffffff"

/-- The single built-in security warning. -/
def infiniteApprovalWarning : SecurityWarning :=
  ⟨"infinite_approval", "high",
   "This approval grants unlimited spending access to your tokens"⟩

/-! ## Claim theorems -/

/-- C3: `isInfiniteApproval` holds exactly on amounts `≥ 2 ^ 255`; decoding
`approve(address,uint256)` with amount `2 ^ 256 - 1` or `2 ^ 255` yields
exactly one `infinite_approval`/`high` warning, and amount `2 ^ 255 - 1`
yields no warnings. -/
theorem c3_infinite_approval :
    (∀ a : Int, isInfiniteApproval? (.num a) = some true ↔ 2 ^ 255 ≤ a) ∧
    (decode offlineEnv {} (approveTx wordMax)).map (fun p => p.1.warnings) =
      .ok [infiniteApprovalWarning] ∧
    (decode offlineEnv {} (approveTx wordHalf)).map (fun p => p.1.warnings) =
      .ok [infiniteApprovalWarning] ∧
    (decode offlineEnv {} (approveTx wordHalfMinus)).map (fun p => p.1.warnings) =
      .ok [] := by
  refine ⟨fun a => ?_, by rfl, by rfl, by rfl⟩
  simp [isInfiniteApproval?, jsToBigInt?, INFINITE_THRESHOLD, decide_eq_true_iff]

/-- C1 counterexample: calldata `"0x"` is shorter than 10 hex characters,
yet `decode`'s raw-decoding stage does not fail the `MalformedCalldata`
condition on it — it returns an empty decoded result, refuting the claimed
"fails if and only if shorter than a 4-byte selector" over a quantifier
range that includes `"0x"`. -/
theorem c1_counterexample :
    decodeCalldata [] { «to» := "0xabc", data := some "0x", chainId := 1 } =
      .ok ⟨"0x", none, none, [], []⟩ ∧
    ("0x" : String).length < 10 := by
  exact ⟨by rfl, by decide⟩

/-- C9 counterexample: on the named-parameter signature
`"transfer(address to, uint256 amount)"`, `computeSelector` hashes the
string as given and returns `0xef4fa1c4`, while the first 4 bytes of the
hash of the canonical form is `0xa9059cbb` — the claimed equality fails. -/
theorem c9_counterexample :
    computeSelector "transfer(address to, uint256 amount)" = "0xef4fa1c4" ∧
    jsToLower (jsSlice (keccak256Hex
      (normalizeSignature "transfer(address to, uint256 amount)")) 0 10) =
      "0xa9059cbb" ∧
    ("0xef4fa1c4" : String) ≠ "0xa9059cbb" := by
  exact ⟨by rfl, by rfl, by decide⟩

/-- The transaction of the C6 counterexample: a `transfer(address,uint256)`
call truncated after its first (address) parameter word. -/
def c6Tx : TransactionInput :=
  { «to» := "0xA0b86991c6218b36c1d19D4a2e9Eb0cE3606eB48"
    data := some ("0xa9059cbb" ++
      "000000000000000000000000d8da6bf26964af9d7eed9e03e53415d37aa96045")
    chainId := 1 }

/-- C6 counterexample: with the second parameter's word missing, the first
parameter is individually decodable (conjunct 2), yet `decodeCalldata`
returns the whole parameter block as a single raw argument instead of
decoding the address and degrading only the failing field. -/
theorem c6_counterexample :
    decodeCalldata [] c6Tx =
      .ok ⟨"0xa9059cbb", some "transfer(address,uint256)", some "transfer",
        [.str "000000000000000000000000d8da6bf26964af9d7eed9e03e53415d37aa96045"],
        ["address", "uint256"]⟩ ∧
    decodeParameter 72 "address"
      "000000000000000000000000d8da6bf26964af9d7eed9e03e53415d37aa96045" 0 =
      .ok ⟨.str "0xd8da6bf26964af9d7eed9e03e53415d37aa96045", 32⟩ := by
  exact ⟨by rfl, by rfl⟩

/-! ## C7: the spec-side acceptance conditions

These predicates transcribe the claim's sentence (the refinement target);
`c7_validate_necessity` proves that `validateDescriptor` accepts only
descriptors satisfying them. -/

/-- Spec: each deployment entry has a numeric chain id and a syntactically
valid 40-hex-digit address. -/
def spec_deploymentEntryOK (dep : JVal) : Bool :=
  (match dep.get "chainId" with
   | some (.num _) => true
   | _ => false) &&
  (match dep.get "address" with
   | some (.str s) => isValidAddress s
   | _ => false)

/-- Spec: the value holds a non-empty deployment list whose entries are all
well-formed. -/
def spec_deploymentsListOK (c : JVal) : Bool :=
  match c.get "deployments" with
  | some (.arr ds) => !ds.isEmpty && ds.all spec_deploymentEntryOK
  | _ => false

/-- Spec: the context names a non-empty contract-deployment list whose
entries are all well-formed. -/
def spec_contractDeploymentsOK (ctx : JVal) : Bool :=
  match ctx.get "contract" with
  | some c => c.truthy && spec_deploymentsListOK c
  | none => false

/-- Spec (amended): a non-empty contract-deployment list, or a truthy
`eip712` entry — the code checks only that `eip712` is present and truthy,
not that it is a typed-data domain object. -/
def spec_contextOK (ctx : JVal) : Bool :=
  spec_contractDeploymentsOK ctx || JVal.truthyOpt (ctx.get "eip712")

/-- Spec: a field has a non-empty path, a non-empty label, and any declared
format tag is drawn from the supported enumeration. -/
def spec_fieldOK (f : JVal) : Bool :=
  (match f.get "path" with
   | some (.str s) => s.length != 0
   | _ => false) &&
  (match f.get "label" with
   | some (.str s) => s.length != 0
   | _ => false) &&
  (match f.get "format" with
   | none => true
   | some (.str s) => VALID_FORMATS.contains s
   | some _ => false)

/-- Spec: a declared format has a field list whose fields are all
well-formed. -/
def spec_formatOK (fmt : JVal) : Bool :=
  match fmt.get "fields" with
  | some (.arr fs) => fs.all spec_fieldOK
  | _ => false

/-- Spec (amended): the display block has a formats mapping (the code does
not require it to be non-empty) whose declared formats are all
well-formed. -/
def spec_displayOK (display : JVal) : Bool :=
  match display.get "formats" with
  | some fmts =>
    fmts.truthy && fmts.typeofObject && fmts.entries.all fun p => spec_formatOK p.2
  | none => false

/-- Spec (amended): the acceptance conditions with "non-empty formats
mapping" weakened to "formats mapping" (an empty one is accepted), the
deployment list required non-empty (which the code does enforce), and the
eip712 alternative read as a truthy entry rather than a validated domain
object. -/
def spec_descriptorAccepted (v : JVal) : Bool :=
  (match v.get "context" with
   | some ctx => spec_contextOK ctx
   | none => false) &&
  (match v.get "display" with
   | some display => spec_displayOK display
   | none => false)

theorem spec_fieldOK_of_validate {f : JVal} {p : String}
    (h : validateFieldDefinition f p = []) : spec_fieldOK f = true := by
  unfold validateFieldDefinition at h
  unfold spec_fieldOK
  split at h
  · simp at h
  · simp only [List.append_eq_nil] at h
    obtain ⟨⟨h1, h2⟩, h3⟩ := h
    simp only [Bool.and_eq_true]
    refine ⟨⟨?_, ?_⟩, ?_⟩
    · cases hp : f.get "path" with
      | none => rw [hp] at h1; simp at h1
      | some v =>
        rw [hp] at h1
        cases v <;> simp_all [bne_iff_ne]
    · cases hp : f.get "label" with
      | none => rw [hp] at h2; simp at h2
      | some v =>
        rw [hp] at h2
        cases v <;> simp_all [bne_iff_ne]
    · cases hp : f.get "format" with
      | none => rfl
      | some v =>
        rw [hp] at h3
        cases v <;> simp_all

theorem spec_fields_all_of_flatten (path : Nat → String) :
    ∀ (fs : List JVal) (k : Nat),
      ((fs.enumFrom k).map fun p => validateFieldDefinition p.2 (path p.1)).flatten = [] →
      fs.all spec_fieldOK = true
  | [], _, _ => rfl
  | f :: rest, k, h => by
    simp only [List.enumFrom, List.map, List.flatten, List.append_eq_nil] at h
    rw [List.all_cons, Bool.and_eq_true]
    exact ⟨spec_fieldOK_of_validate h.1, spec_fields_all_of_flatten path rest (k + 1) h.2⟩

theorem spec_formatOK_of_validate {sig : String} {fmt : JVal}
    (h : validateFunctionFormat sig fmt = []) : spec_formatOK fmt = true := by
  unfold validateFunctionFormat at h
  split at h
  · simp at h
  · rw [List.append_eq_nil] at h
    obtain ⟨-, h2⟩ := h
    unfold spec_formatOK
    split at h2
    case _ fs heq =>
      rw [List.enum] at h2
      exact spec_fields_all_of_flatten
        (fun n => "display.formats[\"" ++ sig ++ "\"]" ++ ".fields[" ++ toString n ++ "]")
        fs 0 h2
    · simp at h2

theorem spec_formats_all_of_flatten :
    ∀ es : List (String × JVal),
      ((es.map fun p => validateFunctionFormat p.1 p.2).flatten = []) →
      (es.all fun p => spec_formatOK p.2) = true
  | [], _ => rfl
  | e :: rest, h => by
    simp only [List.map, List.flatten, List.append_eq_nil] at h
    rw [List.all_cons, Bool.and_eq_true]
    exact ⟨spec_formatOK_of_validate h.1, spec_formats_all_of_flatten rest h.2⟩

theorem spec_displayOK_of_validate {d : JVal}
    (h : validateDisplay d = []) : spec_displayOK d = true := by
  unfold validateDisplay at h
  unfold spec_displayOK
  split at h
  · simp at h
  · split at h
    case _ formats heq =>
      split at h
      · simp at h
      case _ ht =>
        rw [not_or, not_not, not_not] at ht
        simp only [ht.1, ht.2, Bool.true_and]
        exact spec_formats_all_of_flatten formats.entries h
    · simp at h

theorem truthy_of_object_not_null {v : JVal} (h1 : v.typeofObject = true)
    (h2 : v.isNull = false) : v.truthy = true := by
  cases v <;> simp_all [JVal.typeofObject, JVal.isNull, JVal.truthy]

theorem spec_deploymentEntryOK_of_validate {dep : JVal} {i : Nat}
    (h : validateDeployment dep i = .ok []) : spec_deploymentEntryOK dep = true := by
  unfold validateDeployment at h
  unfold spec_deploymentEntryOK
  split at h
  · simp at h
  · rw [Except.ok.injEq, List.append_eq_nil] at h
    obtain ⟨h1, h2⟩ := h
    simp only [Bool.and_eq_true]
    constructor
    · split at h1
      · rfl
      · simp at h1
    · split at h1 <;> split at h2 <;> simp_all

theorem spec_deployments_all_of_validate :
    ∀ (ds : List JVal) (k : Nat),
      validateDeployments (ds.enumFrom k) = .ok [] →
      ds.all spec_deploymentEntryOK = true
  | [], _, _ => rfl
  | d :: rest, k, h => by
    rw [List.enumFrom] at h
    unfold validateDeployments at h
    cases h1 : validateDeployment d k with
    | error e => rw [h1] at h; simp at h
    | ok es =>
      rw [h1] at h
      cases h2 : validateDeployments (rest.enumFrom (k + 1)) with
      | error e => rw [h2] at h; simp at h
      | ok rest' =>
        rw [h2] at h
        rw [Except.ok.injEq, List.append_eq_nil] at h
        rw [List.all_cons, Bool.and_eq_true]
        refine ⟨spec_deploymentEntryOK_of_validate (i := k) ?_, ?_⟩
        · rw [h1, h.1]
        · exact spec_deployments_all_of_validate rest (k + 1) (by rw [h2, h.2])

theorem spec_contract_of_validate {c : JVal}
    (h : validateContractContext c = .ok []) :
    (c.truthy && spec_deploymentsListOK c) = true := by
  unfold validateContractContext at h
  split at h
  · simp at h
  case _ hobj =>
    rw [not_or] at hobj
    obtain ⟨ho1, ho2⟩ := hobj
    rw [not_not] at ho1
    rw [Bool.not_eq_true] at ho2
    rw [Bool.and_eq_true]
    refine ⟨truthy_of_object_not_null ho1 ho2, ?_⟩
    unfold spec_deploymentsListOK
    split at h
    case _ ds heq =>
      split at h
      · simp at h
      case _ hlen =>
        rw [List.enum] at h
        rw [Bool.and_eq_true]
        refine ⟨?_, spec_deployments_all_of_validate ds 0 h⟩
        cases ds with
        | nil => exact absurd rfl hlen
        | cons a t => rfl
    · simp at h

theorem spec_context_of_validate {ctx : JVal}
    (h : validateContext ctx = .ok []) : spec_contextOK ctx = true := by
  unfold validateContext at h
  split at h
  · simp at h
  · split at h
    · simp at h
    case _ hne =>
      rw [not_and_or, not_not, not_not] at hne
      unfold spec_contextOK
      rw [Bool.or_eq_true]
      split at h
      case _ contract heq =>
        split at h
        case _ ht =>
          left
          unfold spec_contractDeploymentsOK
          rw [heq]
          exact spec_contract_of_validate h
        case _ ht =>
          right
          rcases hne with h1 | h2
          · rw [heq, show ∀ v, JVal.truthyOpt (some v) = v.truthy from fun _ => rfl] at h1
            exact absurd h1 ht
          · exact h2
      case _ heq =>
        right
        rcases hne with h1 | h2
        · rw [heq] at h1
          simp [show JVal.truthyOpt none = false from rfl] at h1
        · exact h2

/-- C7 (amended): `validateDescriptor` (as used by `Registry.extend`)
reports a descriptor valid only if the spec's structural conditions hold:
a context with a non-empty, well-formed contract-deployment list or a
truthy `eip712` entry, a display block with a formats mapping (possibly
empty), and well-formed fields and format tags throughout. -/
theorem c7_validate_necessity {v : JVal} {res : ValidationResult}
    (h : validateDescriptor v = .ok res) (hvalid : res.valid = true) :
    spec_descriptorAccepted v = true := by
  unfold validateDescriptor at h
  split at h
  · rw [Except.ok.injEq] at h
    rw [← h] at hvalid
    simp at hvalid
  · split at h
    · simp at h
    case _ contextErrors hctx =>
      rw [Except.ok.injEq] at h
      rw [← h] at hvalid
      simp only [List.isEmpty_iff, List.append_eq_nil] at hvalid
      obtain ⟨⟨hc, hd⟩, -⟩ := hvalid
      unfold spec_descriptorAccepted
      rw [Bool.and_eq_true]
      constructor
      · subst hc
        unfold descriptorContextErrors at hctx
        split at hctx
        case _ ctx heq =>
          split at hctx
          · exact spec_context_of_validate hctx
          · simp at hctx
        · simp at hctx
      · unfold descriptorDisplayErrors at hd
        split at hd
        case _ d heq =>
          split at hd
          · exact spec_displayOK_of_validate hd
          · simp at hd
        · simp at hd

/-- The descriptor of the C7 counterexample: a well-formed contract context
and an empty `display.formats` mapping. -/
def c7EmptyFormatsDescriptor : ERC7730Descriptor where
  context :=
    { contract := some
        { deployments := some
            [{ chainId := 1, address := "0x1111111111111111111111111111111111111111" }] } }
  display := { formats := [] }

/-- C7 counterexample: a descriptor whose `display.formats` mapping is empty
is reported valid by `validateDescriptor`, refuting the claim that such a
descriptor is rejected. -/
theorem c7_counterexample :
    validateDescriptor c7EmptyFormatsDescriptor.toJVal = .ok ⟨true, []⟩ ∧
    c7EmptyFormatsDescriptor.display.formats = [] :=
  ⟨by rfl, by rfl⟩

/-- A concrete valid descriptor exercising the amended C7 conditions. -/
def c7WitnessDescriptor : ERC7730Descriptor where
  context :=
    { contract := some
        { deployments := some
            [{ chainId := 1, address := "0x2222222222222222222222222222222222222222" }] } }
  display :=
    { formats :=
        [("lock(uint256)",
          { intent := some "Lock"
            fields := [{ path := "[0]", label := "Amount", format := some .tokenAmount }] })] }

theorem c7_witness :
    spec_descriptorAccepted c7WitnessDescriptor.toJVal = true :=
  @c7_validate_necessity c7WitnessDescriptor.toJVal ⟨true, []⟩ (by rfl) (by rfl)

/-! ## Association-map algebra for the registry theorems -/

theorem mapGet_mapSet {α : Type} (m : List (String × α)) (k k' : String) (v : α) :
    mapGet (mapSet m k v) k' = if k' = k then some v else mapGet m k' := by
  induction m with
  | nil =>
    simp only [mapSet, mapGet]
    by_cases h : k' = k
    · subst h
      rw [if_pos rfl]
    · rw [if_neg fun hh => h hh.symm, if_neg h]
  | cons p tl ih =>
    obtain ⟨a, b⟩ := p
    by_cases hak : a = k
    · subst hak
      simp only [mapSet, if_pos rfl, mapGet]
      by_cases h : k' = a
      · subst h
        simp
      · rw [if_neg fun hh => h hh.symm, if_neg h, if_neg fun hh => h hh.symm]
    · simp only [mapSet, if_neg hak, mapGet]
      by_cases h : a = k'
      · subst h
        rw [if_pos rfl, if_neg hak, if_pos rfl]
      · rw [if_neg h, if_neg h, ih]

def applySets {α : Type} (m : List (String × α)) :
    List (String × α) → List (String × α)
  | [] => m
  | (k, v) :: rest => applySets (mapSet m k v) rest

def findLastVal {α : Type} : List (String × α) → String → Option α
  | [], _ => none
  | (a, b) :: rest, k =>
    match findLastVal rest k with
    | some v => some v
    | none => if a = k then some b else none

theorem mapGet_applySets {α : Type} :
    ∀ (sets : List (String × α)) (m : List (String × α)) (k : String),
      mapGet (applySets m sets) k =
        match findLastVal sets k with
        | some v => some v
        | none => mapGet m k
  | [], m, k => by simp [applySets, findLastVal]
  | (a, b) :: rest, m, k => by
    simp only [applySets, findLastVal]
    rw [mapGet_applySets rest]
    cases hfl : findLastVal rest k with
    | some v => rfl
    | none =>
      rw [mapGet_mapSet]
      by_cases h : k = a
      · subst h
        simp
      · rw [if_neg h, if_neg fun hh => h hh.symm]

theorem mapGet_applySets_idem {α : Type} (sets m : List (String × α)) (k : String) :
    mapGet (applySets (applySets m sets) sets) k = mapGet (applySets m sets) k := by
  rw [mapGet_applySets, mapGet_applySets]
  cases hfl : findLastVal sets k <;> simp [hfl]

/-- The set operations performed by `extendIndexFormats` on the custom
index. -/
def extendSets (descriptor : ERC7730Descriptor)
    (fmts : List (String × FunctionFormat)) : List (String × RegistryMatch) :=
  fmts.flatMap fun p =>
    (normalizeSignature p.1, (⟨descriptor, p.2⟩ : RegistryMatch)) ::
      (if ¬ jsStartsWith p.1 "0x" then
        [(computeSelector p.1, (⟨descriptor, p.2⟩ : RegistryMatch))]
      else [])

theorem extendIndexFormats_fst (d : ERC7730Descriptor) :
    ∀ (fmts : List (String × FunctionFormat))
      (m : List (String × RegistryMatch)) (sigs : SigMap),
      (extendIndexFormats d fmts (m, sigs)).1 = applySets m (extendSets d fmts)
  | [], _, _ => rfl
  | p :: rest, m, sigs => by
    by_cases h0x : jsStartsWith p.1 "0x" = true
    · rw [show extendIndexFormats d (p :: rest) (m, sigs) =
          extendIndexFormats d rest
            (mapSet m (normalizeSignature p.1) ⟨d, p.2⟩, sigs) from by
        simp [extendIndexFormats, h0x]]
      rw [extendIndexFormats_fst d rest]
      rw [show extendSets d (p :: rest) =
          (normalizeSignature p.1, (⟨d, p.2⟩ : RegistryMatch)) :: extendSets d rest from by
        simp [extendSets, h0x]]
      rfl
    · rw [show extendIndexFormats d (p :: rest) (m, sigs) =
          extendIndexFormats d rest
            (mapSet (mapSet m (normalizeSignature p.1) ⟨d, p.2⟩)
              (computeSelector p.1) ⟨d, p.2⟩,
             (registerSignature sigs p.1).1) from by
        simp [extendIndexFormats, h0x]]
      rw [extendIndexFormats_fst d rest]
      rw [show extendSets d (p :: rest) =
          (normalizeSignature p.1, (⟨d, p.2⟩ : RegistryMatch)) ::
            (computeSelector p.1, (⟨d, p.2⟩ : RegistryMatch)) :: extendSets d rest from by
        simp [extendSets, h0x]]
      rfl

/-- C8: `extend` is idempotent for resolution: after registering the same
descriptor twice, `find` answers exactly as after registering it once. -/
theorem c8_extend_idempotent (ext : String → List RegistryMatch)
    (reg : Registry) (sigs : SigMap) (d : ERC7730Descriptor)
    (r1 r2 : Registry × SigMap × List ValidationResult)
    (h1 : reg.extend sigs [d] = .ok r1)
    (h2 : r1.1.extend r1.2.1 [d] = .ok r2) (s : String) :
    r2.1.find ext s = r1.1.find ext s := by
  unfold Registry.extend extendGo at h1 h2
  cases hv : validateDescriptor d.toJVal with
  | error e =>
    rw [hv] at h1
    exact absurd h1 (by simp)
  | ok validation =>
    rw [hv] at h1 h2
    dsimp only at h1 h2
    by_cases hvalid : validation.valid = true
    · rw [if_pos hvalid] at h1 h2
      rcases hE1 : extendIndexFormats d d.display.formats (reg.customIndex, sigs)
        with ⟨idx1, sigs1⟩
      rw [hE1] at h1
      simp only [extendGo, Except.ok.injEq] at h1
      subst h1
      dsimp only at h2
      rcases hE2 : extendIndexFormats d d.display.formats (idx1, sigs1)
        with ⟨idx2, sigs2⟩
      rw [hE2] at h2
      simp only [extendGo, Except.ok.injEq] at h2
      subst h2
      have e1 : idx1 = applySets reg.customIndex (extendSets d d.display.formats) := by
        rw [← extendIndexFormats_fst, hE1]
      have e2 : idx2 = applySets idx1 (extendSets d d.display.formats) := by
        rw [← extendIndexFormats_fst, hE2]
      have hpt : mapGet idx2 (normalizeSignature s) = mapGet idx1 (normalizeSignature s) := by
        rw [e2, e1, mapGet_applySets_idem]
      simp only [Registry.find]
      rw [hpt]
    · rw [if_neg hvalid] at h1 h2
      simp only [extendGo, Except.ok.injEq] at h1
      subst h1
      simp only [extendGo, Except.ok.injEq] at h2
      subst h2
      rfl

/-- C4: `Registry.find` consults the custom tier first, consults the
external tier only for selector-shaped (`0x`) keys when it is enabled, falls
back to the built-in tier, and returns the first hit without merging; and a
custom descriptor registered via `extend` for a signature overrides the
built-in tier in `find`. -/
theorem c4_find_tiered :
    (∀ (ext : String → List RegistryMatch) (reg : Registry) (s : String)
        (m : RegistryMatch),
        mapGet reg.customIndex (normalizeSignature s) = some m →
        reg.find ext s = some m) ∧
    (∀ (ext : String → List RegistryMatch) (reg : Registry) (s : String),
        mapGet reg.customIndex (normalizeSignature s) = none →
        jsStartsWith (normalizeSignature s) "0x" = false →
        reg.find ext s = mapGet builtinSignatureIndex (normalizeSignature s)) ∧
    (∀ (ext : String → List RegistryMatch) (reg : Registry) (s : String)
        (m : RegistryMatch) (ms : List RegistryMatch),
        mapGet reg.customIndex (normalizeSignature s) = none →
        reg.useExternalRegistry = true →
        jsStartsWith (normalizeSignature s) "0x" = true →
        ext (normalizeSignature s) = m :: ms →
        reg.find ext s = some m) ∧
    (∀ (ext : String → List RegistryMatch) (reg : Registry) (s : String),
        mapGet reg.customIndex (normalizeSignature s) = none →
        ext (normalizeSignature s) = [] →
        reg.find ext s = mapGet builtinSignatureIndex (normalizeSignature s)) ∧
    (∀ (ext : String → List RegistryMatch) (reg : Registry) (sigs : SigMap)
        (d : ERC7730Descriptor) (s : String) (fmt : FunctionFormat)
        (r : Registry × SigMap × List ValidationResult),
        d.display.formats = [(s, fmt)] →
        (mapGet builtinSignatureIndex (normalizeSignature s)).isSome = true →
        (validateDescriptor d.toJVal).map (·.valid) = .ok true →
        reg.extend sigs [d] = .ok r →
        r.1.find ext s = some ⟨d, fmt⟩) := by
  refine ⟨?_, ?_, ?_, ?_, ?_⟩
  · intro ext reg s m h
    simp [Registry.find, h]
  · intro ext reg s h1 h2
    simp only [Registry.find, h1]
    rw [if_neg fun hc => by rw [h2] at hc; exact Bool.false_ne_true hc.2]
  · intro ext reg s m ms h1 hu hs hext
    simp only [Registry.find, h1]
    rw [if_pos ⟨hu, hs⟩, hext]
  · intro ext reg s h1 hext
    simp only [Registry.find, h1]
    by_cases hc : reg.useExternalRegistry = true ∧
        jsStartsWith (normalizeSignature s) "0x" = true
    · rw [if_pos hc, hext]
    · rw [if_neg hc]
  · intro ext reg sigs d s fmt r hfmts hbuiltin hvalid hr
    unfold Registry.extend extendGo at hr
    cases hv : validateDescriptor d.toJVal with
    | error e =>
      rw [hv] at hvalid
      exact absurd hvalid (by simp [Except.map])
    | ok validation =>
      rw [hv] at hr hvalid
      have hval : validation.valid = true := by
        simpa [Except.map] using hvalid
      dsimp only at hr
      rw [if_pos hval, hfmts] at hr
      by_cases h0x : jsStartsWith s "0x" = true
      · rw [show extendIndexFormats d [(s, fmt)] (reg.customIndex, sigs) =
            (mapSet reg.customIndex (normalizeSignature s) ⟨d, fmt⟩, sigs) from by
          simp [extendIndexFormats, h0x]] at hr
        simp only [extendGo, Except.ok.injEq] at hr
        subst hr
        simp [Registry.find, mapGet_mapSet]
      · rw [show extendIndexFormats d [(s, fmt)] (reg.customIndex, sigs) =
            (mapSet (mapSet reg.customIndex (normalizeSignature s) ⟨d, fmt⟩)
              (computeSelector s) ⟨d, fmt⟩,
             (registerSignature sigs s).1) from by
          simp [extendIndexFormats, h0x]] at hr
        simp only [extendGo, Except.ok.injEq] at hr
        subst hr
        by_cases he : normalizeSignature s = computeSelector s
        · simp [Registry.find, mapGet_mapSet, he]
        · simp [Registry.find, mapGet_mapSet, he]

def c4Format : FunctionFormat := { intent := some "Custom approve", fields := [] }

def c4Match : RegistryMatch := ⟨ERC20_DESCRIPTOR, c4Format⟩

def c4CustomReg : Registry := { customIndex := [("k()", c4Match)] }

/-- A custom descriptor for a signature that the built-in tier also maps. -/
def c4CustomDescriptor : ERC7730Descriptor where
  context :=
    { contract := some
        { deployments := some
            [{ chainId := 1, address := "0x3333333333333333333333333333333333333333" }] } }
  display := { formats := [("approve(address,uint256)", c4Format)] }

theorem c4_witness :
    Registry.find (fun _ => []) c4CustomReg "k()" = some c4Match ∧
    Registry.find (fun _ => []) ({} : Registry) "nope()" =
      mapGet builtinSignatureIndex (normalizeSignature "nope()") ∧
    Registry.find (fun _ => [c4Match]) ({} : Registry) "0xDEADbeef" = some c4Match ∧
    Registry.find (fun _ => []) ({} : Registry) "0xDEADbeef" =
      mapGet builtinSignatureIndex (normalizeSignature "0xDEADbeef") ∧
    ∃ r, Registry.extend {} [] [c4CustomDescriptor] = .ok r ∧
      r.1.find (fun _ => []) "approve(address,uint256)" =
        some ⟨c4CustomDescriptor, c4Format⟩ :=
  ⟨c4_find_tiered.1 _ _ _ _ (by rfl),
   c4_find_tiered.2.1 _ _ _ (by rfl) (by rfl),
   c4_find_tiered.2.2.1 _ _ _ c4Match [] (by rfl) (by rfl) (by rfl) (by rfl),
   c4_find_tiered.2.2.2.1 _ _ _ (by rfl) (by rfl),
   ⟨_, rfl, c4_find_tiered.2.2.2.2 _ _ _ _ _ _ _ (by rfl) (by rfl) (by rfl) rfl⟩⟩

theorem Except.map_eq_ok {ε α β : Type} {e : Except ε α} {f : α → β} {b : β}
    (h : e.map f = .ok b) : ∃ a, e = .ok a ∧ b = f a := by
  cases e with
  | error err => simp [Except.map] at h
  | ok a => exact ⟨a, rfl, by simpa [Except.map] using h.symm⟩

theorem buildFromDescriptor_ok {env : DecodeEnv} {tx : TransactionInput}
    {raw : RawDecodedTransaction} {format : FunctionFormat} {source : Source}
    {out : DecodedTransaction}
    (h : buildFromDescriptor env tx raw format source = .ok out) :
    out.confidence = .high ∧ out.source = source := by
  unfold buildFromDescriptor at h
  split at h
  · exact absurd h (by simp)
  · rw [Except.ok.injEq] at h
    subst h
    exact ⟨rfl, rfl⟩

theorem buildInferred_ok {tx : TransactionInput} {raw : RawDecodedTransaction}
    {out : DecodedTransaction} (h : buildInferred tx raw = .ok out) :
    (out.confidence = .medium ∧ out.source = .inferred) ∨
    (out.confidence = .low ∧ out.source = .basic) := by
  unfold buildInferred at h
  split at h
  · exact absurd h (by simp)
  · rw [Except.ok.injEq] at h
    subst h
    cases hs : sigTruthy raw with
    | true => exact Or.inl ⟨by simp [hs], by simp [hs]⟩
    | false => exact Or.inr ⟨by simp [hs], by simp [hs]⟩

/-- C2: every `DecodedTransaction` produced by `decode` satisfies the
confidence/source correlation, on every path of the state machine:
high ⇒ registry or sourcify, medium ⇒ inferred, low ⇒ basic. -/
theorem c2_confidence_source_correlation (env : DecodeEnv) (st : SignerState)
    (tx : TransactionInput) (out : DecodedTransaction × SignerState)
    (h : decode env st tx = .ok out) :
    (out.1.confidence = .high →
      out.1.source = .registry ∨ out.1.source = .sourcify) ∧
    (out.1.confidence = .medium → out.1.source = .inferred) ∧
    (out.1.confidence = .low → out.1.source = .basic) := by
  unfold decode at h
  split at h
  · exact absurd h (by simp)
  · split at h
    · -- registry hit
      obtain ⟨r, hb, hout⟩ := Except.map_eq_ok h
      obtain ⟨hc, hs⟩ := buildFromDescriptor_ok hb
      subst hout
      refine ⟨fun _ => Or.inl hs, fun hm => ?_, fun hl => ?_⟩
      · rw [hc] at hm; cases hm
      · rw [hc] at hl; cases hl
    · split at h
      · -- sourcify branch
        split at h
        · exact absurd h (by simp)
        · -- sourcify hit
          obtain ⟨r, hb, hout⟩ := Except.map_eq_ok h
          obtain ⟨hc, hs⟩ := buildFromDescriptor_ok hb
          subst hout
          refine ⟨fun _ => Or.inr hs, fun hm => ?_, fun hl => ?_⟩
          · rw [hc] at hm; cases hm
          · rw [hc] at hl; cases hl
        · -- sourcify miss: inferred
          obtain ⟨r, hb, hout⟩ := Except.map_eq_ok h
          subst hout
          rcases buildInferred_ok hb with ⟨hc, hs⟩ | ⟨hc, hs⟩ <;>
            refine ⟨fun hh => ?_, fun hh => ?_, fun hh => ?_⟩ <;>
            simp_all
      · -- fallback disabled or unusable destination: inferred
        obtain ⟨r, hb, hout⟩ := Except.map_eq_ok h
        subst hout
        rcases buildInferred_ok hb with ⟨hc, hs⟩ | ⟨hc, hs⟩ <;>
          refine ⟨fun hh => ?_, fun hh => ?_, fun hh => ?_⟩ <;>
          simp_all

/-- The C2 witness input: a known `transferFrom` with no registry format
beyond the built-in tier, decoded offline. -/
def c2Tx : TransactionInput :=
  { «to» := "0x4444444444444444444444444444444444444444"
    data := some "0xdeadbeef00"
    chainId := 1 }

theorem c2_witness :
    ∃ out, decode offlineEnv {} c2Tx = .ok out ∧
      ((out.1.confidence = .high →
        out.1.source = .registry ∨ out.1.source = .sourcify) ∧
      (out.1.confidence = .medium → out.1.source = .inferred) ∧
      (out.1.confidence = .low → out.1.source = .basic)) :=
  ⟨_, rfl, c2_confidence_source_correlation offlineEnv {} c2Tx _ rfl⟩

/-- The empty raw decoding returned for absent/empty/`0x` calldata. -/
def emptyRaw : RawDecodedTransaction := ⟨"0x", none, none, [], []⟩

/-- The decoded transaction produced for absent/empty/`0x` calldata. -/
def c10Result (tx : TransactionInput) : DecodedTransaction :=
  { confidence := .low
    source := .basic
    intent := "Contract interaction"
    functionName := "unknown"
    signature := "0x"
    fields := []
    warnings := []
    metadataChainId := tx.chainId
    metadataContractAddress := tx.to
    rawSelector := "0x"
    rawArgs := [] }

/-- C10: for absent, empty or `"0x"` calldata, `decodeCalldata` does not
throw — it returns the empty raw decoding (selector `0x`, null signature and
function name, no arguments, no input types) under any signature table — and
`decode` completes with a basic `DecodedTransaction` in every configuration
and state. -/
theorem c10_empty_calldata (env : DecodeEnv) (st : SignerState)
    (tx : TransactionInput)
    (h : tx.data = none ∨ tx.data = some "" ∨ tx.data = some "0x") :
    (∀ custom : SigMap, decodeCalldata custom tx = .ok emptyRaw) ∧
    ∃ st', decode env st tx = .ok (c10Result tx, st') := by
  have hraw : ∀ custom : SigMap, decodeCalldata custom tx = .ok emptyRaw := by
    intro custom
    rcases h with h | h | h <;> (unfold decodeCalldata; rw [h]) <;> rfl
  refine ⟨hraw, ?_⟩
  unfold decode
  rw [hraw st.sigs]
  dsimp only [emptyRaw]
  by_cases hc : env.useSourcifyFallback = true ∧ tx.to ≠ "" ∧
      tx.to ≠ "0x0000000000000000000000000000000000000000"
  · have hts : ∃ stX, trySourcify env st tx = .ok (none, stX) := by
      simp only [trySourcify]
      cases hcache : mapGet st.sourcifyCache
          (toString tx.chainId ++ ":" ++ jsToLower tx.to) with
      | some cached =>
        dsimp only
        cases cached with
        | some descriptor =>
          dsimp only
          rw [hraw st.sigs]
          exact ⟨st, rfl⟩
        | none => exact ⟨st, rfl⟩
      | none =>
        dsimp only
        cases hgen : env.sourcifyGen tx.chainId tx.to with
        | none => exact ⟨_, rfl⟩
        | some descriptor =>
          dsimp only
          cases hext : st.registry.extend st.sigs [descriptor] with
          | error e => exact ⟨_, rfl⟩
          | ok rr =>
            rcases rr with ⟨reg', sigs', res⟩
            dsimp only
            rw [hraw sigs']
            exact ⟨_, rfl⟩
    obtain ⟨stX, hts⟩ := hts
    rw [if_pos hc, hts]
    exact ⟨stX, rfl⟩
  · rw [if_neg hc]
    exact ⟨st, rfl⟩

/-- A Sourcify-enabled offline-oracle configuration. -/
def c10Env : DecodeEnv :=
  { useSourcifyFallback := true
    sourcifyGen := fun _ _ => none
    ext := fun _ => []
    dateRender := fun _ => "" }

def c10Tx : TransactionInput := { «to» := "0xabc", data := some "0x", chainId := 5 }

theorem c10_witness :
    decodeCalldata [] c10Tx = .ok emptyRaw ∧
    ∃ st', decode c10Env {} c10Tx = .ok (c10Result c10Tx, st') := by
  have := c10_empty_calldata c10Env {} c10Tx (Or.inr (Or.inr rfl))
  exact ⟨this.1 [], this.2⟩

/-- The raw decoding of calldata with an unregistered selector: null
signature and function name, one `bytes` argument holding the payload after
the selector. -/
def c5Raw (d : String) : RawDecodedTransaction :=
  ⟨jsToLower (jsSlice d 0 10), none, none, [.str (jsSliceFrom d 10)], ["bytes"]⟩

/-- The decoded transaction for an unregistered selector: basic source, one
raw field holding the undecoded tail. -/
def c5Result (tx : TransactionInput) (d : String) : DecodedTransaction :=
  { confidence := .low
    source := .basic
    intent := "Contract interaction"
    functionName := "unknown"
    signature := jsToLower (jsSlice d 0 10)
    fields := [⟨"Param 1", jsSliceFrom d 10, .str (jsSliceFrom d 10), "[0]",
      some .raw⟩]
    warnings := []
    metadataChainId := tx.chainId
    metadataContractAddress := tx.to
    rawSelector := jsToLower (jsSlice d 0 10)
    rawArgs := [.str (jsSliceFrom d 10)] }

/-- C5: for calldata of at least 4 bytes (10 hex characters) whose selector
has no registered signature, `decodeCalldata` returns null function name and
signature and exactly one `bytes` argument holding the payload after the
selector, and `decode` (with the Sourcify fallback disabled) completes with
`source = basic` and a single raw field containing that undecoded tail. -/
theorem c5_unknown_selector (env : DecodeEnv) (st : SignerState)
    (tx : TransactionInput) (d : String)
    (hd : tx.data = some d) (hlen : 10 ≤ d.length)
    (hsel : getSignatureBySelector st.sigs (jsToLower (jsSlice d 0 10)) = none)
    (hfb : env.useSourcifyFallback = false) :
    decodeCalldata st.sigs tx = .ok (c5Raw d) ∧
    decode env st tx = .ok (c5Result tx d, st) := by
  have hne : ¬ (d.isEmpty = true ∨ d = "0x") := by
    rintro (he | he)
    · rw [String.isEmpty_iff] at he; subst he; simp at hlen
    · subst he; exact absurd hlen (by decide)
  have hex : extractSelector d = .ok (jsToLower (jsSlice d 0 10)) := by
    unfold extractSelector
    rw [if_neg]
    rintro (he | he)
    · exact hne (Or.inl he)
    · omega
  have hraw : decodeCalldata st.sigs tx = .ok (c5Raw d) := by
    unfold decodeCalldata
    rw [hd]
    dsimp only
    rw [if_neg hne, hex]
    dsimp only
    rw [hsel]
    rfl
  refine ⟨hraw, ?_⟩
  unfold decode
  rw [hraw]
  dsimp only [c5Raw]
  rw [if_neg fun hcon => Bool.false_ne_true (hfb ▸ hcon.1)]
  rfl

/-- The C5 witness transaction: a selector absent from every signature
table. -/
def c5Tx : TransactionInput :=
  { «to» := "0x5555555555555555555555555555555555555555"
    data := some "0xdeadbeef00"
    chainId := 1 }

theorem c5_witness :
    decodeCalldata ({} : SignerState).sigs c5Tx = .ok (c5Raw "0xdeadbeef00") ∧
    decode offlineEnv {} c5Tx = .ok (c5Result c5Tx "0xdeadbeef00", {}) :=
  c5_unknown_selector offlineEnv {} c5Tx "0xdeadbeef00" rfl (by decide)
    (by rfl) rfl

/-- C6 (amended): when decoding the parameter block of a registered
signature fails on any individual parameter (`decodeParameters` reports an
error), `decodeCalldata` recovers without aborting the call, but the
fallback is per call, not per field: the whole parameter block is returned
as one raw argument (the hex tail after the selector) while the full typed
input list is still reported. -/
theorem c6_raw_fallback (custom : SigMap) (tx : TransactionInput)
    (d : String) (sig : FunctionSignature) (name : String)
    (inputs : List String)
    (hd : tx.data = some d) (hlen : 10 ≤ d.length)
    (hsel : getSignatureBySelector custom (jsToLower (jsSlice d 0 10)) =
      some sig)
    (hparse : parseSignature sig.signature = .ok (name, inputs))
    (hfail : ∃ e, decodeParameters inputs (jsSliceFrom d 10) = .error e) :
    decodeCalldata custom tx =
      .ok ⟨jsToLower (jsSlice d 0 10), some sig.signature, some name,
           [.str (jsSliceFrom d 10)], inputs⟩ := by
  have hne : ¬ (d.isEmpty = true ∨ d = "0x") := by
    rintro (he | he)
    · rw [String.isEmpty_iff] at he; subst he; simp at hlen
    · subst he; exact absurd hlen (by decide)
  have hex : extractSelector d = .ok (jsToLower (jsSlice d 0 10)) := by
    unfold extractSelector
    rw [if_neg]
    rintro (he | he)
    · exact hne (Or.inl he)
    · omega
  obtain ⟨e, he⟩ := hfail
  unfold decodeCalldata
  rw [hd]
  dsimp only
  rw [if_neg hne, hex]
  dsimp only
  rw [hsel]
  dsimp only
  rw [hparse]
  dsimp only
  rw [he]

theorem c6_witness :
    decodeCalldata [] c6Tx =
      .ok ⟨"0xa9059cbb", some "transfer(address,uint256)", some "transfer",
        [.str "000000000000000000000000d8da6bf26964af9d7eed9e03e53415d37aa96045"],
        ["address", "uint256"]⟩ :=
  c6_raw_fallback [] c6Tx
    ("0xa9059cbb" ++
      "000000000000000000000000d8da6bf26964af9d7eed9e03e53415d37aa96045")
    ⟨"0xa9059cbb", "transfer(address,uint256)", "transfer"⟩
    "transfer" ["address", "uint256"] rfl (by decide) (by rfl) (by rfl)
    ⟨_, by rfl⟩

/-- Every built-in signature string parses. -/
theorem common_signatures_parse :
    ∀ p ∈ COMMON_SIGNATURES, isOkE (parseSignature p.2.signature) = true := by
  decide

/-- A successful association-list lookup returns a stored value. -/
theorem mapGet_mem {α : Type} :
    ∀ (m : List (String × α)) (k : String) (v : α),
      mapGet m k = some v → ∃ k', (k', v) ∈ m
  | [], k, v, h => by simp [mapGet] at h
  | (a, b) :: t, k, v, h => by
    by_cases hak : a = k
    · rw [mapGet, if_pos hak] at h
      injection h with h
      subst h
      exact ⟨a, List.mem_cons_self _ _⟩
    · rw [mapGet, if_neg hak] at h
      obtain ⟨k', hk⟩ := mapGet_mem t k v h
      exact ⟨k', List.mem_cons_of_mem _ hk⟩

/-- When every registered custom signature parses, every selector lookup
yields a signature that parses. -/
theorem getSignatureBySelector_parses (custom : SigMap)
    (hgood : ∀ p ∈ custom, isOkE (parseSignature p.2.signature) = true)
    (sel : String) (sig : FunctionSignature)
    (h : getSignatureBySelector custom sel = some sig) :
    isOkE (parseSignature sig.signature) = true := by
  unfold getSignatureBySelector at h
  dsimp only at h
  cases hm : mapGet custom (jsToLower sel) with
  | some s =>
    rw [hm] at h
    simp only [Option.orElse, Option.some.injEq] at h
    obtain ⟨k', hk⟩ := mapGet_mem custom (jsToLower sel) s hm
    rw [← h]
    exact hgood (k', s) hk
  | none =>
    rw [hm] at h
    simp only [Option.orElse] at h
    obtain ⟨k', hk⟩ := mapGet_mem COMMON_SIGNATURES (jsToLower sel) sig h
    exact common_signatures_parse (k', sig) hk

/-- C1 (amended): provided every registered custom signature parses (as the
built-in table does), `decodeCalldata` fails with the fatal
`"Invalid calldata: too short"` condition exactly when the calldata payload
is present, truthy (non-empty), not the bare `"0x"` prefix, and shorter than
10 hex characters; on every other input it succeeds.  (The original claim's
quantifier range included the empty string and `"0x"`, on which the call
succeeds with an empty decoding instead of failing.) -/
theorem c1_too_short (custom : SigMap) (tx : TransactionInput)
    (hgood : ∀ p ∈ custom, isOkE (parseSignature p.2.signature) = true) :
    (decodeCalldata custom tx = .error "Invalid calldata: too short" ↔
      ∃ d, tx.data = some d ∧ d.isEmpty = false ∧ d ≠ "0x" ∧ d.length < 10) ∧
    (isOkE (decodeCalldata custom tx) = true ↔
      ¬ ∃ d, tx.data = some d ∧ d.isEmpty = false ∧ d ≠ "0x" ∧
        d.length < 10) := by
  have key : (decodeCalldata custom tx = .error "Invalid calldata: too short" ∧
      ∃ d, tx.data = some d ∧ d.isEmpty = false ∧ d ≠ "0x" ∧ d.length < 10) ∨
      ((∃ r, decodeCalldata custom tx = .ok r) ∧
      ¬ ∃ d, tx.data = some d ∧ d.isEmpty = false ∧ d ≠ "0x" ∧
        d.length < 10) := by
    cases hdata : tx.data with
    | none =>
      refine Or.inr ⟨⟨_, by unfold decodeCalldata; rw [hdata]⟩, ?_⟩
      rintro ⟨d, hd, _⟩; cases hd
    | some d =>
      by_cases hif : d.isEmpty = true ∨ d = "0x"
      · refine Or.inr ⟨⟨_, by
            unfold decodeCalldata; rw [hdata]; dsimp only; rw [if_pos hif]⟩, ?_⟩
        rintro ⟨d', hd', hne1, hne2, _⟩
        injection hd' with hd'; subst hd'
        rcases hif with hif | hif
        · simp [hif] at hne1
        · exact hne2 hif
      · by_cases hlen : d.length < 10
        · refine Or.inl ⟨?_, ⟨d, rfl, ?_, ?_, hlen⟩⟩
          · have hex : extractSelector d = .error "Invalid calldata: too short" := by
              unfold extractSelector
              rw [if_pos (Or.inr hlen)]
            unfold decodeCalldata; rw [hdata]; dsimp only
            rw [if_neg hif, hex]
          · cases hie : d.isEmpty
            · rfl
            · exact absurd (Or.inl hie) hif
          · exact fun he => hif (Or.inr he)
        · have hex : extractSelector d = .ok (jsToLower (jsSlice d 0 10)) := by
            unfold extractSelector
            rw [if_neg]
            rintro (he | he)
            · exact hif (Or.inl he)
            · exact hlen he
          refine Or.inr ⟨?_, ?_⟩
          · cases hsig : getSignatureBySelector custom
                (jsToLower (jsSlice d 0 10)) with
            | none =>
              exact ⟨_, by
                unfold decodeCalldata; rw [hdata]; dsimp only
                rw [if_neg hif, hex]; dsimp only; rw [hsig]⟩
            | some sig =>
              have hp := getSignatureBySelector_parses custom hgood _ sig hsig
              cases hps : parseSignature sig.signature with
              | error e => rw [hps] at hp; exact absurd hp (by simp [isOkE])
              | ok pr =>
                rcases pr with ⟨name, inputs⟩
                exact ⟨_, by
                  unfold decodeCalldata; rw [hdata]; dsimp only
                  rw [if_neg hif, hex]; dsimp only; rw [hsig]; dsimp only
                  rw [hps]⟩
          · rintro ⟨d', hd', _, _, hl⟩
            injection hd' with hd'; subst hd'
            exact hlen hl
  rcases key with ⟨h1, h2⟩ | ⟨⟨r, h1⟩, h2⟩
  · refine ⟨⟨fun _ => h2, fun _ => h1⟩, ?_, ?_⟩
    · intro hok; rw [h1] at hok; exact absurd hok (by simp [isOkE])
    · intro hn; exact absurd h2 hn
  · refine ⟨⟨?_, fun hp => absurd hp h2⟩, fun _ => h2, fun _ => ?_⟩
    · intro herr; rw [herr] at h1; exact Except.noConfusion h1
    · rw [h1]; rfl

/-- The C1 witness transaction: a truthy payload shorter than 10
characters. -/
def c1Tx : TransactionInput :=
  { «to» := "0x1111111111111111111111111111111111111111"
    data := some "0x1234"
    chainId := 1 }

theorem c1_witness :
    decodeCalldata [] c1Tx = .error "Invalid calldata: too short" ∧
    isOkE (decodeCalldata [] c1Tx) ≠ true := by
  have h := c1_too_short [] c1Tx (fun p hp => absurd hp (List.not_mem_nil p))
  refine ⟨h.1.mpr ⟨"0x1234", rfl, by decide, by decide, by decide⟩, fun hok => ?_⟩
  exact (h.2.mp hok) ⟨"0x1234", rfl, by decide, by decide, by decide⟩

/-- C9 (amended): `computeSelector` hashes the signature string exactly as
given — it performs no canonicalisation — so the spec's property holds
precisely on signatures already in canonical form (fixed points of
`normalizeSignature`): there the selector is the lower-cased first 4 bytes
(10 hex characters with the `0x` prefix) of the keccak-256 hash of the
canonical form.  In particular the built-in canonical signatures
`transfer(address,uint256)` and `approve(address,uint256)` map to
`0xa9059cbb` and `0x095ea7b3`. -/
theorem c9_selector_canonical :
    (∀ s : String, normalizeSignature s = s →
      computeSelector s =
        jsToLower (jsSlice (keccak256Hex (normalizeSignature s)) 0 10)) ∧
    computeSelector "transfer(address,uint256)" = "0xa9059cbb" ∧
    computeSelector "approve(address,uint256)" = "0x095ea7b3" := by
  refine ⟨fun s h => ?_, by rfl, by rfl⟩
  rw [h]
  rfl

theorem c9_witness :
    normalizeSignature "transfer(address,uint256)" =
      "transfer(address,uint256)" ∧
    computeSelector "transfer(address,uint256)" =
      jsToLower (jsSlice (keccak256Hex
        (normalizeSignature "transfer(address,uint256)")) 0 10) :=
  ⟨rfl, c9_selector_canonical.1 "transfer(address,uint256)" rfl⟩

/-- The C8 witness descriptor: a valid ERC-7730 descriptor with one
deployment and one format. -/
def c8Descriptor : ERC7730Descriptor where
  context :=
    { contract := some
        { deployments := some
            [{ chainId := 1, address := "0x8888888888888888888888888888888888888888" }] } }
  display := { formats := [("transfer(address,uint256)",
    { intent := some "Send", fields := [] })] }

theorem c8_witness :
    ∃ r1 r2 : Registry × SigMap × List ValidationResult,
      Registry.extend {} [] [c8Descriptor] = .ok r1 ∧
      Registry.extend r1.1 r1.2.1 [c8Descriptor] = .ok r2 ∧
      r2.1.find (fun _ => []) "transfer(address,uint256)" =
        r1.1.find (fun _ => []) "transfer(address,uint256)" :=
  ⟨_, _, rfl, rfl,
    c8_extend_idempotent (fun _ => []) {} [] c8Descriptor _ _ rfl rfl
      "transfer(address,uint256)"⟩

end ERC7730
